import Mathlib

/-!
# Base Sepolia faucet: the disbursement core

A shallow embedding of `backend/src/database.js`, `backend/src/ethereum.js`,
`backend/src/recaptcha.js` and the handlers `POST /request` and
`GET /transaction/:txHash` of `backend/src/server.js`.

Modelling conventions.

* Timestamps (`created_at`, `datetime('now')`) are whole seconds since the Unix epoch, an
  `Int`.  SQLite's `CURRENT_TIMESTAMP` has one-second resolution; the rows hold instants of
  the years 0000 to 9999, as `CURRENT_TIMESTAMP` writes them, and for these the textual
  comparison `created_at > datetime(...)` agrees with the comparison of the seconds.
* `datetime(t, modifier)` is `NULL` when the modifier is malformed (`'--1 hours'`) or the
  result leaves the dates SQLite can represent; a comparison with `NULL` selects no row.
* The table `requests` is the list of its rows in insertion order.
* Every SQL statement reads the clock when it runs, so each ledger function takes the
  instant `now` as an argument and the handler receives one instant per statement.
* Calls into `ethers`, the JSON-RPC provider, the wallet and `axios` are parameters: each
  may return a value or throw.  In the `POST /request` handler the outcome of
  `recaptcha.verifyToken` is a parameter as well; `verifyToken` itself is embedded on its
  own.
* A property access on an object literal finds the literal's own properties and those it
  inherits from `Object.prototype`; the inherited ones are a parameter.
* Storage-layer failures (a rejected sqlite promise) are outside the model.
-/

namespace Faucet

/-! ## JavaScript values -/

/-- A thrown JavaScript error: the optional `code` property and the `message`. -/
structure JsError where
  code : Option String
  message : String
deriving DecidableEq, Repr

/-- A JavaScript number: `NaN`, the two infinities, or the finite double `m * 2 ^ e`. -/
inductive JsNumber where
  | nan
  | posInf
  | negInf
  | finite (m : Int) (e : Int)
deriving DecidableEq, Repr

namespace JsNumber

/-- The global `isNaN(x)` on a number. -/
def isNaN : JsNumber → Bool
  | nan => true
  | _ => false

/-- The comparison `x <= 0`. -/
def leZero : JsNumber → Bool
  | nan => false
  | posInf => false
  | negInf => true
  | finite m _ => decide (m ≤ 0)

/-- Truthiness of a number: everything except `NaN` and zero. -/
def truthy : JsNumber → Bool
  | nan => false
  | finite m _ => decide (m ≠ 0)
  | _ => true

end JsNumber

/-- Truthiness of an optional string field: `undefined` and `''` are falsy. -/
def truthyStr : Option String → Bool
  | none => false
  | some s => decide (s ≠ "")

/-- Truthiness of an optional `bigint`: `null` and `0n` are falsy. -/
def truthyBig : Option Nat → Bool
  | none => false
  | some n => decide (n ≠ 0)

/-! ## Ledger store (`database.js`) -/

/-- One row of the table `requests`. -/
structure Row where
  id : Nat
  address : String
  tx_hash : Option String
  amount : String
  status : String
  error_message : Option String
  created_at : Int
deriving DecidableEq, Repr

/-- The table `requests`, in insertion order. -/
abbrev Ledger := List Row

/-- The first instant SQLite represents, Julian day zero (`-4713-11-24 12:00:00`). -/
def minInstant : Int := -210866760000

/-- The last instant SQLite represents (`9999-12-31 23:59:59`). -/
def maxInstant : Int := 253402300799

/-- The result of a date function for the instant `t`: `NULL` outside the dates SQLite
represents. -/
def sqlInstant (t : Int) : Option Int :=
  if minInstant ≤ t ∧ t ≤ maxInstant then some t else none

/-- The value of `datetime('now', '-${hours} hours')` in seconds, `none` for `NULL`.  A
negative `hours` makes the modifier `'--N hours'`, which SQLite does not accept. -/
def windowStart (now : Int) (hours : Int) : Option Int :=
  if hours < 0 then none else sqlInstant (now - hours * 3600)

/-- The value of `datetime(created_at, '+${hours} hours')` in seconds, `none` for `NULL`.
A negative `hours` makes the modifier `'+-N hours'`, which SQLite does not accept. -/
def windowEnd (createdAt : Int) (hours : Int) : Option Int :=
  if hours < 0 then none else sqlInstant (createdAt + hours * 3600)

/-- The predicate `address = ? AND created_at > datetime('now', '-${hours} hours')`; the
comparison with `NULL` is not true. -/
def inWindow (address : String) (hours : Int) (now : Int) (r : Row) : Bool :=
  decide (r.address = address) &&
    match windowStart now hours with
    | some start => decide (r.created_at > start)
    | none => false

/-- The rows selected by the `WHERE` clause shared by the two throttling queries. -/
def recentRows (db : Ledger) (address : String) (hours : Int) (now : Int) : List Row :=
  db.filter (inWindow address hours now)

/-- Embeds `hasRecentRequest`: `SELECT COUNT(*) ...` and then `row.count > 0`. -/
def hasRecentRequest (db : Ledger) (address : String) (hours : Int) (now : Int) : Bool :=
  decide ((recentRows db address hours now).length > 0)

/-- The aggregate `MAX(created_at)` over a list of rows, `none` for SQL `NULL`. -/
def maxCreatedAt : List Row → Option Int
  | [] => none
  | r :: rs =>
    match maxCreatedAt rs with
    | none => some r.created_at
    | some m => some (max r.created_at m)

/-- The object resolved by `getTimeUntilNextRequest`; `nextAllowed` is `none` when the
column `next_allowed` is `NULL`. -/
structure TimeInfo where
  lastRequest : Int
  nextAllowed : Option Int
  secondsRemaining : Nat
deriving DecidableEq, Repr

/-- Embeds `getTimeUntilNextRequest`: the first row of the window ordered by
`created_at DESC`, with `next_allowed = datetime(created_at, '+${hours} hours')` and
`Math.max(0, seconds_remaining)`, where `seconds_remaining` is `next_allowed - now` in
seconds and `Math.max(0, null)` is `0`; `none` is the resolved `null`. -/
def getTimeUntilNextRequest (db : Ledger) (address : String) (hours : Int) (now : Int) :
    Option TimeInfo :=
  match maxCreatedAt (recentRows db address hours now) with
  | none => none
  | some c =>
    match windowEnd c hours with
    | some next => some ⟨c, some next, Int.toNat (next - now)⟩
    | none => some ⟨c, none, 0⟩

/-- The identifier `AUTOINCREMENT` assigns to the next inserted row. -/
def nextId (db : Ledger) : Nat :=
  (db.map Row.id).foldl max 0 + 1

/-- Embeds `recordRequest`: `INSERT INTO requests (address, tx_hash, amount, status,
error_message)`; `created_at` takes its default `CURRENT_TIMESTAMP`. -/
def recordRequest (db : Ledger) (address amount : String) (txHash : Option String)
    (status : String) (errorMessage : Option String) (now : Int) : Ledger :=
  db ++ [⟨nextId db, address, txHash, amount, status, errorMessage, now⟩]

/-- The value of `SELECT MAX(created_at) FROM requests WHERE address = ?`. -/
def latestCreatedAt (db : Ledger) (address : String) : Option Int :=
  maxCreatedAt (db.filter (fun r => decide (r.address = address)))

/-- The `WHERE` clause of both `UPDATE` statements:
`address = ? AND created_at = (SELECT MAX(created_at) ...)`. -/
def isLatest (db : Ledger) (address : String) (r : Row) : Bool :=
  decide (r.address = address) && decide (some r.created_at = latestCreatedAt db address)

/-- Embeds `updateRequestWithTx`: `SET tx_hash = ?, status = 'completed'` on the rows the
`WHERE` clause selects; the second component is `this.changes`. -/
def updateRequestWithTx (db : Ledger) (address txHash : String) : Ledger × Nat :=
  (db.map (fun r =>
      if isLatest db address r then
        ⟨r.id, r.address, some txHash, r.amount, "completed", r.error_message, r.created_at⟩
      else r),
   (db.filter (isLatest db address)).length)

/-- Embeds `updateRequestWithError`: `SET status = 'failed', error_message = ?` on the rows
the `WHERE` clause selects; the second component is `this.changes`. -/
def updateRequestWithError (db : Ledger) (address errorMessage : String) : Ledger × Nat :=
  (db.map (fun r =>
      if isLatest db address r then
        ⟨r.id, r.address, r.tx_hash, r.amount, "failed", some errorMessage, r.created_at⟩
      else r),
   (db.filter (isLatest db address)).length)

/-! ## Chain client (`ethereum.js`) -/

/-- The fee data resolved by `provider.getFeeData()`; each field is a `bigint` or `null`. -/
structure FeeData where
  gasPrice : Option Nat
  maxFeePerGas : Option Nat
  maxPriorityFeePerGas : Option Nat
deriving DecidableEq, Repr

/-- The transaction object handed to `wallet.sendTransaction`; an absent property is
`none`. -/
structure Tx where
  to_ : String
  value : Nat
  gasLimit : Nat
  gasPrice : Option Nat
  maxFeePerGas : Option Nat
  maxPriorityFeePerGas : Option Nat
deriving DecidableEq, Repr

/-- The receipt resolved by `transaction.wait()`. -/
structure Receipt where
  blockNumber : Nat
  gasUsed : Option Nat
  effectiveGasPrice : Option Nat
deriving DecidableEq, Repr

/-- The object returned by `sendTransaction`. -/
structure TxResult where
  txHash : String
  blockNumber : Nat
  gasUsed : String
  effectiveGasPrice : String
deriving DecidableEq, Repr

/-- The argument `amountInEth` of `sendTransaction`: `undefined`, `null`, or a value given
by the number `parseFloat` reads from it. -/
inductive JsAmount where
  | undefined
  | null
  | value (parsed : JsNumber)
deriving DecidableEq, Repr

/-- Everything `EthereumService` reaches outside the repository: `ethers.isAddress`,
`Number.prototype.toString`, `ethers.parseEther`, the provider and the wallet.  Each call
either returns or throws. -/
structure Chain where
  isAddress : String → Except JsError Bool
  numberToString : JsNumber → String
  parseEther : String → Except JsError Nat
  getFeeData : Except JsError FeeData
  estimateGas : String → Nat → Except JsError Nat
  walletSendTransaction : Tx → Except JsError String
  wait : String → Except JsError Receipt

/-- A call that leaves the request handler, in the order the source makes them. -/
inductive Call where
  | isAddress (address : String)
  | hasRecentRequest (address : String) (hours : Int)
  | getTimeUntilNextRequest (address : String) (hours : Int)
  | verifyToken (token : String) (remoteIp : Option String)
  | recordRequest (address amount : String)
  | parseEther (text : String)
  | getFeeData
  | estimateGas (to_ : String) (value : Nat)
  | walletSendTransaction (tx : Tx)
  | wait (hash : String)
  | updateRequestWithTx (address txHash : String)
  | updateRequestWithError (address errorMessage : String)
deriving DecidableEq, Repr

/-- Embeds `isValidAddress`: `ethers.isAddress(address)` inside `try`, `false` in the
`catch`. -/
def isValidAddress (eth : Chain) (address : String) : Bool :=
  match eth.isAddress address with
  | .ok b => b
  | .error _ => false

/-- The value of `ethers.parseUnits("1.5", "gwei")` in wei. -/
def fallbackGasPrice : Nat := 1500000000

/-- The fee selection of `sendTransaction`: the three-way branch on `feeData`. -/
def buildTx (toAddress : String) (amountInWei gasLimit : Nat) (feeData : FeeData) : Tx :=
  if truthyBig feeData.gasPrice then
    ⟨toAddress, amountInWei, gasLimit, feeData.gasPrice, none, none⟩
  else if truthyBig feeData.maxFeePerGas && truthyBig feeData.maxPriorityFeePerGas then
    ⟨toAddress, amountInWei, gasLimit, none, feeData.maxFeePerGas,
      feeData.maxPriorityFeePerGas⟩
  else
    ⟨toAddress, amountInWei, gasLimit, some fallbackGasPrice, none, none⟩

/-- The expression `x ? x.toString() : "0"` on an optional `bigint`. -/
def bigToString (x : Option Nat) : String :=
  match x with
  | some n => if n ≠ 0 then toString n else "0"
  | none => "0"

/-- The body of the `try` block of `sendTransaction`, with the calls it made. -/
def trySendTransaction (eth : Chain) (toAddress : String) (amountInEth : JsAmount) :
    Except JsError TxResult × List Call :=
  if !isValidAddress eth toAddress then
    (.error ⟨none, "Invalid recipient address"⟩, [.isAddress toAddress])
  else
    match amountInEth with
    | .undefined => (.error ⟨none, "Amount is required"⟩, [.isAddress toAddress])
    | .null => (.error ⟨none, "Amount is required"⟩, [.isAddress toAddress])
    | .value amount =>
      if amount.isNaN || amount.leZero then
        (.error ⟨none, "Invalid amount"⟩, [.isAddress toAddress])
      else
        let text := eth.numberToString amount
        match eth.parseEther text with
        | .error e => (.error e, [.isAddress toAddress, .parseEther text])
        | .ok amountInWei =>
          match eth.getFeeData with
          | .error e => (.error e, [.isAddress toAddress, .parseEther text, .getFeeData])
          | .ok feeData =>
            match eth.estimateGas toAddress amountInWei with
            | .error e =>
              (.error e, [.isAddress toAddress, .parseEther text, .getFeeData,
                .estimateGas toAddress amountInWei])
            | .ok gasLimit =>
              let tx := buildTx toAddress amountInWei gasLimit feeData
              match eth.walletSendTransaction tx with
              | .error e =>
                (.error e, [.isAddress toAddress, .parseEther text, .getFeeData,
                  .estimateGas toAddress amountInWei, .walletSendTransaction tx])
              | .ok hash =>
                match eth.wait hash with
                | .error e =>
                  (.error e, [.isAddress toAddress, .parseEther text, .getFeeData,
                    .estimateGas toAddress amountInWei, .walletSendTransaction tx,
                    .wait hash])
                | .ok receipt =>
                  (.ok ⟨hash, receipt.blockNumber, bigToString receipt.gasUsed,
                      bigToString receipt.effectiveGasPrice⟩,
                    [.isAddress toAddress, .parseEther text, .getFeeData,
                      .estimateGas toAddress amountInWei, .walletSendTransaction tx,
                      .wait hash])

/-- The `catch` block of `sendTransaction`: the message of the error it rethrows. -/
def classifyError (error : JsError) : String :=
  if error.code = some "INSUFFICIENT_FUNDS" then
    "Insufficient funds in faucet wallet"
  else if error.code = some "UNPREDICTABLE_GAS_LIMIT" then
    "Transaction failed: unable to estimate gas"
  else if error.code = some "REPLACEMENT_UNDERPRICED" then
    "Transaction failed: replacement transaction underpriced"
  else
    "Transaction failed: " ++ error.message

/-- Embeds `sendTransaction`: the result or the message of the thrown `Error`, with the
calls made. -/
def sendTransaction (eth : Chain) (toAddress : String) (amountInEth : JsAmount) :
    Except String TxResult × List Call :=
  match trySendTransaction eth toAddress amountInEth with
  | (.ok r, calls) => (.ok r, calls)
  | (.error e, calls) => (.error (classifyError e), calls)

/-! ## Disbursement coordinator (`POST /request` in `server.js`) -/

/-- The parsed environment: `parseInt(process.env.RATE_LIMIT_HOURS)`, an integer of either
sign (`none` for `NaN`), and `parseFloat(process.env.FAUCET_AMOUNT)`. -/
structure Config where
  RATE_LIMIT_HOURS : Option Int
  FAUCET_AMOUNT : JsNumber
deriving DecidableEq, Repr

/-- The expression `parseInt(process.env.RATE_LIMIT_HOURS) || 24`. -/
def rateLimitHours (cfg : Config) : Int :=
  match cfg.RATE_LIMIT_HOURS with
  | some h => if h ≠ 0 then h else 24
  | none => 24

/-- The double written `0.001`. -/
def defaultAmount : JsNumber := .finite 1152921504606847 (-60)

/-- The expression `parseFloat(process.env.FAUCET_AMOUNT) || 0.001`. -/
def faucetAmount (cfg : Config) : JsNumber :=
  if cfg.FAUCET_AMOUNT.truthy then cfg.FAUCET_AMOUNT else defaultAmount

/-- The collaborators of one request: the configuration, the chain client's outside world
and the outcome of `recaptcha.verifyToken` (the message of the error it throws). -/
structure Env where
  config : Config
  chain : Chain
  verifyToken : String → Option String → Except String Unit

/-- The instants at which the three clock-reading statements of one request run:
the `hasRecentRequest` query, the `getTimeUntilNextRequest` query and the `INSERT`. -/
structure Clock where
  check : Int
  info : Int
  insert : Int
deriving DecidableEq, Repr

/-- The request: the two body fields, strings as the interface declares them (`none` when
absent), and `clientIp`. -/
structure Request where
  address : Option String
  captchaToken : Option String
  clientIp : Option String
deriving DecidableEq, Repr

/-- The HTTP status and the JSON body sent; a property that is absent or `null` is
`none`. -/
structure Response where
  status : Nat
  success : Bool
  error : Option String
  timeRemaining : Option Nat
  timeString : Option String
  nextAllowed : Option Int
  txHash : Option String
  amount : Option JsNumber
  blockNumber : Option Nat
  message : Option String
deriving DecidableEq, Repr

/-- The responses of the shape `res.status(status).json(\x7b success: false, error \x7d)`. -/
def Response.failure (status : Nat) (error : String) : Response :=
  ⟨status, false, some error, none, none, none, none, none, none, none⟩

/-- Which `res` statement of the handler answered. -/
inductive Kind where
  | missingField
  | invalidAddress
  | rateLimited
  | verificationFailed
  | success
  | submissionFailed
  | internalError
deriving DecidableEq, Repr

/-- What one run of the handler produces: the answering branch, the response, the ledger
afterwards and the calls made. -/
structure Outcome where
  kind : Kind
  response : Response
  db : Ledger
  calls : List Call

/-- The `timeString` computed from `timeInfo.secondsRemaining`. -/
def timeString (secondsRemaining : Nat) : String :=
  let hours := secondsRemaining / 3600
  let minutes := (secondsRemaining % 3600) / 60
  let seconds := secondsRemaining % 60
  if hours > 0 then
    toString hours ++ "h " ++ toString minutes ++ "m " ++ toString seconds ++ "s"
  else if minutes > 0 then
    toString minutes ++ "m " ++ toString seconds ++ "s"
  else
    toString seconds ++ "s"

/-- The 429 response of the handler. -/
def rateLimitedResponse (hours : Int) (timeInfo : TimeInfo) : Response :=
  ⟨429, false,
    some ("Rate limit exceeded. You can only request once every " ++ toString hours ++
      " hours."),
    some timeInfo.secondsRemaining, some (timeString timeInfo.secondsRemaining),
    timeInfo.nextAllowed, none, none, none, none⟩

/-- The 200 response of the handler. -/
def successResponse (eth : Chain) (address : String) (amount : JsNumber) (r : TxResult) :
    Response :=
  ⟨200, true, none, none, none, none, some r.txHash, some amount, some r.blockNumber,
    some ("Successfully sent " ++ eth.numberToString amount ++ " ETH to " ++ address)⟩

/-- The part of the handler after the throttle check: verification, the pending record,
the submission and the reconciliation.  `pre` holds the calls already made. -/
def disburse (env : Env) (db : Ledger) (address token : String) (clientIp : Option String)
    (clock : Clock) (pre : List Call) : Outcome :=
  match env.verifyToken token clientIp with
  | .error msg =>
    ⟨.verificationFailed, Response.failure 400 msg, db,
      pre ++ [.verifyToken token clientIp]⟩
  | .ok _ =>
    let amount := faucetAmount env.config
    let amountText := env.chain.numberToString amount
    let db1 := recordRequest db address amountText none "pending" none clock.insert
    match sendTransaction env.chain address (.value amount) with
    | (.ok txResult, sent) =>
      ⟨.success, successResponse env.chain address amount txResult,
        (updateRequestWithTx db1 address txResult.txHash).1,
        pre ++ [.verifyToken token clientIp, .recordRequest address amountText] ++ sent ++
          [.updateRequestWithTx address txResult.txHash]⟩
    | (.error msg, sent) =>
      ⟨.submissionFailed, Response.failure 500 msg,
        (updateRequestWithError db1 address msg).1,
        pre ++ [.verifyToken token clientIp, .recordRequest address amountText] ++ sent ++
          [.updateRequestWithError address msg]⟩

/-- Embeds the handler of `app.post('/request')`.  The outer `catch` answers when
`timeInfo` is `null`, where reading `timeInfo.secondsRemaining` throws. -/
def requestDisbursement (env : Env) (db : Ledger) (req : Request) (clock : Clock) :
    Outcome :=
  if !truthyStr req.address || !truthyStr req.captchaToken then
    ⟨.missingField,
      Response.failure 400 "Missing required fields: address and captchaToken are required",
      db, []⟩
  else
    match req.address, req.captchaToken with
    | some address, some token =>
      if !isValidAddress env.chain address then
        ⟨.invalidAddress, Response.failure 400 "Invalid Ethereum address format", db,
          [.isAddress address]⟩
      else
        let hours := rateLimitHours env.config
        if hasRecentRequest db address hours clock.check then
          match getTimeUntilNextRequest db address hours clock.info with
          | some timeInfo =>
            ⟨.rateLimited, rateLimitedResponse hours timeInfo, db,
              [.isAddress address, .hasRecentRequest address hours,
                .getTimeUntilNextRequest address hours]⟩
          | none =>
            ⟨.internalError, Response.failure 500 "Internal server error", db,
              [.isAddress address, .hasRecentRequest address hours,
                .getTimeUntilNextRequest address hours]⟩
        else
          disburse env db address token req.clientIp clock
            [.isAddress address, .hasRecentRequest address hours]
    | _, _ =>
      ⟨.missingField,
        Response.failure 400 "Missing required fields: address and captchaToken are required",
        db, []⟩

/-- A run of the handler on a sequence of requests, each with its own collaborators and
clock readings; the ledger is threaded through. -/
def runRequests (db : Ledger) : List (Env × Request × Clock) → Ledger
  | [] => db
  | (env, req, clock) :: rest => runRequests (requestDisbursement env db req clock).db rest


/-! ## Reference formats and sample data -/

/-- The format `"Xh Ym Zs"` with all three components always present. -/
def hmsFormat (s : Nat) : String :=
  toString (s / 3600) ++ "h " ++ toString ((s % 3600) / 60) ++ "m " ++ toString (s % 60) ++ "s"

/-- Whether a call writes to the ledger. -/
def Call.isWrite : Call → Bool
  | .recordRequest _ _ => true
  | .updateRequestWithTx _ _ => true
  | .updateRequestWithError _ _ => true
  | _ => false

/-- Whether a call reads or writes the ledger or reaches the verification service. -/
def Call.isLedgerOrVerifier : Call → Bool
  | .hasRecentRequest _ _ => true
  | .getTimeUntilNextRequest _ _ => true
  | .verifyToken _ _ => true
  | c => c.isWrite

/-- A chain whose every call succeeds and which accepts the one address `0xA`. -/
def sampleChain : Chain :=
  ⟨fun a => .ok (decide (a = "0xA")), fun _ => "0.001", fun _ => .ok 1000000000000000,
    .ok ⟨some 7, none, none⟩, fun _ _ => .ok 21000, fun _ => .ok "0xh",
    fun _ => .ok ⟨5, some 21000, some 7⟩⟩

/-- The chain `sampleChain` with a gas estimation that reports insufficient funds. -/
def poorChain : Chain :=
  ⟨fun a => .ok (decide (a = "0xA")), fun _ => "0.001", fun _ => .ok 1000000000000000,
    .ok ⟨some 7, none, none⟩,
    fun _ _ => .error ⟨some "INSUFFICIENT_FUNDS", "insufficient funds"⟩,
    fun _ => .ok "0xh", fun _ => .ok ⟨5, some 21000, some 7⟩⟩

/-- Collaborators that all succeed, with the default window and amount. -/
def sampleEnv : Env := ⟨⟨none, .nan⟩, sampleChain, fun _ _ => .ok ()⟩

/-- Collaborators whose chain submission fails for lack of funds. -/
def poorEnv : Env := ⟨⟨none, .nan⟩, poorChain, fun _ _ => .ok ()⟩

/-- Collaborators whose verification rejects every token. -/
def strictEnv : Env :=
  ⟨⟨none, .nan⟩, sampleChain, fun _ _ => .error "reCAPTCHA verification timeout"⟩

/-- A well-formed request for `0xA`. -/
def sampleRequest : Request := ⟨some "0xA", some "tok", none⟩

/-- A ledger with one completed record of `0xA` created at second 100. -/
def sampleLedger : Ledger := [⟨1, "0xA", some "0xh", "0.001", "completed", none, 100⟩]

/-- The fields are present: both body fields are non-empty strings. -/
def WellFormed (req : Request) (a tok : String) : Prop :=
  req.address = some a ∧ a ≠ "" ∧ req.captchaToken = some tok ∧ tok ≠ ""

/-- The record `r` is of `address` and no record of `address` in `db` is newer. -/
def IsLatestOf (db : Ledger) (address : String) (r : Row) : Prop :=
  r.address = address ∧ ∀ x ∈ db, x.address = address → x.created_at ≤ r.created_at

/-- The number of positions at which two ledgers of the same length differ. -/
def changedRows (before after : Ledger) : Nat :=
  ((before.zip after).filter (fun p => decide (p.1 ≠ p.2))).length

/-- A ledger with two pending records of `0xA` created in the same second. -/
def tiedLedger : Ledger :=
  [⟨1, "0xA", none, "0.001", "pending", none, 100⟩,
   ⟨2, "0xA", none, "0.001", "pending", none, 100⟩]

/-- The record has reached a terminal state. -/
def Terminal (r : Row) : Prop :=
  r.status = "completed" ∨ r.status = "failed"

/-- The clock does not run backwards between the throttle check and the insertion. -/
def Clock.Monotone (clock : Clock) : Prop :=
  clock.check ≤ clock.insert

instance (clock : Clock) : Decidable clock.Monotone :=
  inferInstanceAs (Decidable (clock.check ≤ clock.insert))

/-! ## Verification client (`recaptcha.js`) -/

/-- The own properties of the object literal `errorMessages`, in source order. -/
def errorMessages : List (String × String) :=
  [("missing-input-secret", "The secret parameter is missing"),
   ("invalid-input-secret", "The secret parameter is invalid or malformed"),
   ("missing-input-response", "The response parameter is missing"),
   ("invalid-input-response", "The response parameter is invalid or malformed"),
   ("bad-request", "The request is invalid or malformed"),
   ("timeout-or-duplicate",
     "The response is no longer valid: either is too old or has been used previously")]

/-- What a plain object inherits from `Object.prototype`: for the name of an inherited
property the text `join` makes of its value (a function or an object, hence truthy), and
`none` for every other name. -/
abbrev ObjectPrototype := String → Option String

/-- The properties of `Object.prototype` in Node, with the text of each value. -/
def nodeObjectPrototype : ObjectPrototype := fun name =>
  if name = "__proto__" then some "[object Object]"
  else if name = "constructor" then some "function Object() \x7b [native code] \x7d"
  else if name ∈ ["__defineGetter__", "__defineSetter__", "hasOwnProperty",
      "__lookupGetter__", "__lookupSetter__", "isPrototypeOf", "propertyIsEnumerable",
      "toString", "valueOf", "toLocaleString"] then
    some ("function " ++ name ++ "() \x7b [native code] \x7d")
  else none

/-- The callback `code => errorMessages[code] || code` followed by the conversion to text
that `join` applies to its result.  The property access `errorMessages[code]` finds an own
property of the literal first and an inherited property otherwise. -/
def messageFor (proto : ObjectPrototype) (code : String) : String :=
  match errorMessages.lookup code with
  | some text => if text ≠ "" then text else code
  | none =>
    match proto code with
    | some text => text
    | none => code

/-- Embeds `getErrorMessage`. -/
def getErrorMessage (proto : ObjectPrototype) (errorCodes : List String) : String :=
  if errorCodes.length = 0 then
    "Unknown error"
  else
    ", ".intercalate (errorCodes.map (messageFor proto))

/-- The body `response.data` of the upstream answer: the truthiness of `success`, the
array `error-codes` (`none` when absent), `score` and `action`. -/
structure SiteverifyData where
  success : Bool
  errorCodes : Option (List String)
  score : Option JsNumber
  action : Option String
deriving DecidableEq, Repr

/-- An error as the `catch` of `verifyToken` reads it: `error.response` (status and
status text, `none` when absent), `error.code` and `error.message`. -/
structure CaughtError where
  response : Option (Nat × String)
  code : Option String
  message : String
deriving DecidableEq, Repr

/-- The object `verifyToken` returns. -/
structure VerifyResult where
  success : Bool
  score : Option JsNumber
  action : Option String
deriving DecidableEq, Repr

/-- The four `throw` statements of `verifyToken`: the rejection thrown inside the `try`
(`invalidToken`) and the three branches of the `catch`. -/
inductive VerificationKind where
  | invalidToken
  | serviceError
  | timeout
  | transportError
deriving DecidableEq, Repr

/-- The error `verifyToken` throws: the statement that threw it and its message. -/
structure VerificationError where
  kind : VerificationKind
  message : String
deriving DecidableEq, Repr

/-- The call `axios.post(verificationUrl, params, ...)` as a function of the parameters
`secret`, `response` and `remoteip`: the answer's data, or the error it rejects with. -/
abbrev Siteverify := String → String → Option String → Except CaughtError SiteverifyData

/-- The expression `data.score || null`. -/
def scoreOrNull (score : Option JsNumber) : Option JsNumber :=
  match score with
  | some x => if x.truthy then some x else none
  | none => none

/-- The expression `data.action || null`. -/
def actionOrNull (action : Option String) : Option String :=
  if truthyStr action then action else none

/-- The text of the rejection thrown inside the `try`. -/
def rejectionMessage (proto : ObjectPrototype) (data : SiteverifyData) : String :=
  "reCAPTCHA verification failed: " ++ getErrorMessage proto (data.errorCodes.getD [])

/-- The body of the `try` block of `verifyToken`: the result, or the error that reaches
the `catch`, be it the rejection of `axios.post` or the `Error` thrown on
`!data.success`. -/
def tryVerifyToken (proto : ObjectPrototype) (post : Siteverify) (secretKey token : String)
    (remoteIp : Option String) : Except CaughtError VerifyResult :=
  match post secretKey token (if truthyStr remoteIp then remoteIp else none) with
  | .error e => .error e
  | .ok data =>
    if !data.success then
      .error ⟨none, none, rejectionMessage proto data⟩
    else
      .ok ⟨true, scoreOrNull data.score, actionOrNull data.action⟩

/-- The `catch` block of `verifyToken`: the error it throws for the error it caught. -/
def rethrow (error : CaughtError) : VerificationError :=
  match error.response with
  | some (status, statusText) =>
    ⟨.serviceError, "reCAPTCHA API error: " ++ toString status ++ " " ++ statusText⟩
  | none =>
    if error.code = some "ECONNABORTED" then
      ⟨.timeout, "reCAPTCHA verification timeout"⟩
    else
      ⟨.transportError, "reCAPTCHA verification error: " ++ error.message⟩

/-- Embeds `verifyToken`. -/
def verifyToken (proto : ObjectPrototype) (post : Siteverify) (secretKey token : String)
    (remoteIp : Option String) : Except VerificationError VerifyResult :=
  match tryVerifyToken proto post secretKey token remoteIp with
  | .ok r => .ok r
  | .error e => .error (rethrow e)

/-- An upstream that answers `success: false` with the one code `invalid-input-response`. -/
def rejectingUpstream : Siteverify :=
  fun _ _ _ => .ok ⟨false, some ["invalid-input-response"], none, none⟩

/-! ## Status lookup (`GET /transaction/:txHash` in `server.js`) -/

/-- The character class `[a-fA-F0-9]`, by code-unit ranges. -/
def isHexDigit (c : Char) : Bool :=
  (decide (97 ≤ c.toNat) && decide (c.toNat ≤ 102)) ||
  (decide (65 ≤ c.toNat) && decide (c.toNat ≤ 70)) ||
  (decide (48 ≤ c.toNat) && decide (c.toNat ≤ 57))

/-- The test `/^0x[a-fA-F0-9]\x7b64\x7d$/.test(txHash)`; without the `m` flag `$` matches at
the end of the input only. -/
def matchesTxHash (txHash : String) : Bool :=
  match txHash.data with
  | '0' :: 'x' :: digits => decide (digits.length = 64) && digits.all isHexDigit
  | _ => false

/-- The receipt resolved by `provider.getTransactionReceipt`, as far as
`getTransactionStatus` reads it. -/
structure StatusReceipt where
  status : Option Nat
  blockNumber : Nat
  gasUsed : Nat
deriving DecidableEq, Repr

/-- The object `getTransactionStatus` returns; an absent property is `none`. -/
structure TxStatus where
  status : String
  message : String
  blockNumber : Option Nat
  gasUsed : Option String
deriving DecidableEq, Repr

/-- The call `provider.getTransactionReceipt(txHash)`: a receipt, `null`, or a thrown
error. -/
abbrev ReceiptLookup := String → Except JsError (Option StatusReceipt)

/-- Embeds `getTransactionStatus`: the status, or the message of the thrown `Error`. -/
def getTransactionStatus (getTransactionReceipt : ReceiptLookup) (txHash : String) :
    Except String TxStatus :=
  match getTransactionReceipt txHash with
  | .error e => .error ("Failed to get transaction status: " ++ e.message)
  | .ok none => .ok ⟨"pending", "Transaction is pending", none, none⟩
  | .ok (some receipt) =>
    if receipt.status = some 1 then
      .ok ⟨"success", "Transaction successful", some receipt.blockNumber,
        some (toString receipt.gasUsed)⟩
    else
      .ok ⟨"failed", "Transaction failed", some receipt.blockNumber, none⟩

/-- The HTTP status and the JSON body the status lookup sends; an absent property is
`none`. -/
structure StatusResponse where
  httpStatus : Nat
  success : Bool
  error : Option String
  txHash : Option String
  status : Option String
  message : Option String
  blockNumber : Option Nat
  gasUsed : Option String
deriving DecidableEq, Repr

/-- The 400 response of the status lookup. -/
def invalidHashResponse : StatusResponse :=
  ⟨400, false, some "Invalid transaction hash format", none, none, none, none, none⟩

/-- Embeds the handler of `app.get('/transaction/:txHash')`: the response, and the hashes
for which `getTransactionStatus` was called. -/
def getTransaction (getTransactionReceipt : ReceiptLookup) (txHash : String) :
    StatusResponse × List String :=
  if decide (txHash = "") || !matchesTxHash txHash then
    (invalidHashResponse, [])
  else
    match getTransactionStatus getTransactionReceipt txHash with
    | .ok st =>
      (⟨200, true, none, some txHash, some st.status, some st.message, st.blockNumber,
        st.gasUsed⟩, [txHash])
    | .error msg => (⟨500, false, some msg, none, none, none, none, none⟩, [txHash])

/-- The format the status lookup is specified to accept: exactly 66 characters, `0x`
followed by 64 hexadecimal digits of either case. -/
def IsTxHashFormat (h : String) : Prop :=
  h.length = 66 ∧ h.data.take 2 = ['0', 'x'] ∧
    ∀ c ∈ h.data.drop 2, c ∈ "0123456789abcdefABCDEF".toList

/-- A hash of the accepted format: `0x` followed by 64 times `a`. -/
def sampleHash : String := String.mk ('0' :: 'x' :: List.replicate 64 'a')

/-- A provider that knows a successful receipt for every hash. -/
def sampleLookup : ReceiptLookup := fun _ => .ok (some ⟨some 1, 5, 21000⟩)

/-! ## Further sample chains -/

/-- The chain `sampleChain` with `Infinity` printed as such and refused by
`ethers.parseEther`. -/
def pickyChain : Chain :=
  ⟨fun a => .ok (decide (a = "0xA")),
    fun x => if x = .posInf then "Infinity" else "0.001",
    fun text =>
      if text = "Infinity" then
        .error ⟨some "INVALID_ARGUMENT", "invalid FixedNumber string value"⟩
      else .ok 1000000000000000,
    .ok ⟨some 7, none, none⟩, fun _ _ => .ok 21000, fun _ => .ok "0xh",
    fun _ => .ok ⟨5, some 21000, some 7⟩⟩

/-- The chain `sampleChain` on a network that reports a legacy gas price of zero and no
fee pair. -/
def zeroFeeChain : Chain :=
  ⟨fun a => .ok (decide (a = "0xA")), fun _ => "0.001", fun _ => .ok 1000000000000000,
    .ok ⟨some 0, none, none⟩, fun _ _ => .ok 21000, fun _ => .ok "0xh",
    fun _ => .ok ⟨5, some 21000, some 7⟩⟩

/-- The instant `t` is one SQLite represents. -/
def Representable (t : Int) : Prop :=
  minInstant ≤ t ∧ t ≤ maxInstant

instance (t : Int) : Decidable (Representable t) :=
  inferInstanceAs (Decidable (minInstant ≤ t ∧ t ≤ maxInstant))

/-- The throttle check of a request orders the records: the window is positive, SQLite
represents its start at the check, and the clock does not run backwards between the check
and the insertion. -/
def Orderly (env : Env) (clock : Clock) : Prop :=
  0 < rateLimitHours env.config ∧
    Representable (clock.check - rateLimitHours env.config * 3600) ∧ clock.Monotone

instance (env : Env) (clock : Clock) : Decidable (Orderly env clock) :=
  inferInstanceAs (Decidable (0 < rateLimitHours env.config ∧
    Representable (clock.check - rateLimitHours env.config * 3600) ∧ clock.Monotone))

/-! ## Clock readings and further sample data -/

/-- The whole second that `CURRENT_TIMESTAMP` and `strftime('%s', 'now')` print at the
instant of `ms` milliseconds since the Unix epoch. -/
def clockReading (ms : Int) : Int :=
  ms / 1000

/-- The second `2026-11-05 00:00:00`. -/
def sampleNow : Int := 1793836800

/-- A ledger with one completed record of `0xA` created a minute before `sampleNow`. -/
def recentLedger : Ledger :=
  [⟨1, "0xA", some "0xh", "0.001", "completed", none, 1793836740⟩]

/-- The collaborators of `sampleEnv` with `RATE_LIMIT_HOURS=100000000`. -/
def hugeWindowEnv : Env := ⟨⟨some 100000000, .nan⟩, sampleChain, fun _ _ => .ok ()⟩

/-- The collaborators of `poorEnv` with `RATE_LIMIT_HOURS=100000000`. -/
def poorHugeWindowEnv : Env := ⟨⟨some 100000000, .nan⟩, poorChain, fun _ _ => .ok ()⟩

/-- The collaborators of `sampleEnv` with `RATE_LIMIT_HOURS=-1`. -/
def negativeWindowEnv : Env := ⟨⟨some (-1), .nan⟩, sampleChain, fun _ _ => .ok ()⟩

/-- The collaborators of `poorEnv` with `RATE_LIMIT_HOURS=-1`. -/
def poorNegativeWindowEnv : Env := ⟨⟨some (-1), .nan⟩, poorChain, fun _ _ => .ok ()⟩

/-! ## Ledger lemmas -/

theorem maxCreatedAt_eq_none_iff (l : List Row) : maxCreatedAt l = none ↔ l = [] := by
  cases l with
  | nil => simp [maxCreatedAt]
  | cons r rs =>
    simp only [maxCreatedAt]
    cases maxCreatedAt rs <;> simp

theorem maxCreatedAt_mem (l : List Row) (c : Int) (h : maxCreatedAt l = some c) :
    ∃ r ∈ l, r.created_at = c := by
  induction l generalizing c with
  | nil => simp [maxCreatedAt] at h
  | cons r rs ih =>
    simp only [maxCreatedAt] at h
    cases hm : maxCreatedAt rs with
    | none =>
      rw [hm] at h
      simp only [Option.some.injEq] at h
      exact ⟨r, List.mem_cons_self _ _, h⟩
    | some m =>
      rw [hm] at h
      simp only [Option.some.injEq] at h
      rcases le_total r.created_at m with hle | hle
      · obtain ⟨x, hx, hxc⟩ := ih m hm
        refine ⟨x, List.mem_cons_of_mem _ hx, ?_⟩
        rw [hxc, ← h, max_eq_right hle]
      · refine ⟨r, List.mem_cons_self _ _, ?_⟩
        rw [← h, max_eq_left hle]

theorem maxCreatedAt_ge (l : List Row) (c : Int) (h : maxCreatedAt l = some c) :
    ∀ r ∈ l, r.created_at ≤ c := by
  induction l generalizing c with
  | nil => simp
  | cons x xs ih =>
    simp only [maxCreatedAt] at h
    intro r hr
    cases hm : maxCreatedAt xs with
    | none =>
      rw [hm] at h
      simp only [Option.some.injEq] at h
      have hnil : xs = [] := (maxCreatedAt_eq_none_iff xs).1 hm
      subst hnil
      simp only [List.mem_singleton] at hr
      rw [hr, h]
    | some m =>
      rw [hm] at h
      simp only [Option.some.injEq] at h
      rcases List.mem_cons.1 hr with hrx | hrx
      · rw [hrx, ← h]
        exact le_max_left _ _
      · rw [← h]
        exact le_trans (ih m hm r hrx) (le_max_right _ _)

theorem windowStart_eq_some_iff (now hours start : Int) :
    windowStart now hours = some start ↔
      0 ≤ hours ∧ Representable (now - hours * 3600) ∧ start = now - hours * 3600 := by
  unfold windowStart sqlInstant Representable
  constructor
  · intro h
    split at h
    · simp at h
    · split at h
      · rename_i h0 hr
        simp only [Option.some.injEq] at h
        exact ⟨by omega, hr, h.symm⟩
      · simp at h
  · rintro ⟨h0, hr, hs⟩
    have h1 : ¬ hours < 0 := by omega
    rw [if_neg h1, if_pos hr, hs]

theorem windowStart_of_representable (now hours : Int) (h0 : 0 ≤ hours)
    (hr : Representable (now - hours * 3600)) :
    windowStart now hours = some (now - hours * 3600) :=
  (windowStart_eq_some_iff now hours _).2 ⟨h0, hr, rfl⟩

theorem windowEnd_of_representable (c hours : Int) (h0 : 0 ≤ hours)
    (hr : Representable (c + hours * 3600)) :
    windowEnd c hours = some (c + hours * 3600) := by
  unfold windowEnd sqlInstant
  have h1 : ¬ hours < 0 := by omega
  have hr2 : minInstant ≤ c + hours * 3600 ∧ c + hours * 3600 ≤ maxInstant := hr
  rw [if_neg h1, if_pos hr2]

theorem mem_recentRows (db : Ledger) (a : String) (h now : Int) (r : Row) :
    r ∈ recentRows db a h now ↔
      r ∈ db ∧ r.address = a ∧ ∃ start, windowStart now h = some start ∧
        r.created_at > start := by
  unfold recentRows inWindow
  cases hw : windowStart now h with
  | none => simp
  | some start => simp

theorem hasRecentRequest_iff (db : Ledger) (a : String) (h now : Int) :
    hasRecentRequest db a h now = true ↔
      ∃ start, windowStart now h = some start ∧
        ∃ r ∈ db, r.address = a ∧ r.created_at > start := by
  unfold hasRecentRequest
  rw [decide_eq_true_iff, gt_iff_lt, List.length_pos_iff_exists_mem]
  constructor
  · rintro ⟨r, hr⟩
    obtain ⟨h1, h2, start, h3, h4⟩ := (mem_recentRows db a h now r).1 hr
    exact ⟨start, h3, r, h1, h2, h4⟩
  · rintro ⟨start, h3, r, h1, h2, h4⟩
    exact ⟨r, (mem_recentRows db a h now r).2 ⟨h1, h2, start, h3, h4⟩⟩

theorem hasRecentRequest_of_null (db : Ledger) (a : String) (h now : Int)
    (hw : windowStart now h = none) : hasRecentRequest db a h now = false := by
  rw [← Bool.not_eq_true, hasRecentRequest_iff]
  rintro ⟨start, hs, _⟩
  rw [hw] at hs
  simp at hs

theorem hasRecentRequest_false_iff (db : Ledger) (a : String) (h now start : Int)
    (hw : windowStart now h = some start) :
    hasRecentRequest db a h now = false ↔
      ∀ r ∈ db, r.address = a → r.created_at ≤ start := by
  rw [← Bool.not_eq_true, hasRecentRequest_iff]
  constructor
  · intro hn r hr hra
    by_contra hc
    exact hn ⟨start, hw, r, hr, hra, by omega⟩
  · rintro hall ⟨s, hs, r, hr, hra, hgt⟩
    rw [hw] at hs
    simp only [Option.some.injEq] at hs
    have := hall r hr hra
    omega

theorem getTimeUntilNextRequest_of_recent (db : Ledger) (a : String) (h now : Int)
    (hrec : hasRecentRequest db a h now = true) :
    ∃ start c : Int, windowStart now h = some start ∧
      (∃ r ∈ db, r.address = a ∧ r.created_at = c) ∧
      (∀ r ∈ db, r.address = a → r.created_at ≤ c) ∧
      c > start ∧
      getTimeUntilNextRequest db a h now =
        match windowEnd c h with
        | some next => some ⟨c, some next, Int.toNat (next - now)⟩
        | none => some ⟨c, none, 0⟩ := by
  obtain ⟨start, hw, r0, hr0, hr0a, hr0w⟩ := (hasRecentRequest_iff db a h now).1 hrec
  have hmem0 : r0 ∈ recentRows db a h now :=
    (mem_recentRows db a h now r0).2 ⟨hr0, hr0a, start, hw, hr0w⟩
  cases hm : maxCreatedAt (recentRows db a h now) with
  | none =>
    rw [(maxCreatedAt_eq_none_iff _).1 hm] at hmem0
    simp at hmem0
  | some c =>
    obtain ⟨x, hx, hxc⟩ := maxCreatedAt_mem _ c hm
    obtain ⟨hx1, hx2, s, hs, hx3⟩ := (mem_recentRows db a h now x).1 hx
    have hss : s = start := by
      rw [hw] at hs
      exact (Option.some.inj hs).symm
    subst hss
    have hcw : c > s := by rw [← hxc]; exact hx3
    refine ⟨s, c, hw, ⟨x, hx1, hx2, hxc⟩, ?_, hcw, ?_⟩
    · intro r hr hra
      by_cases hgt : r.created_at > s
      · exact maxCreatedAt_ge _ c hm r
          ((mem_recentRows db a h now r).2 ⟨hr, hra, s, hw, hgt⟩)
      · omega
    · simp only [getTimeUntilNextRequest, hm]

theorem getTimeUntilNextRequest_of_not_recent (db : Ledger) (a : String) (h now : Int)
    (hrec : hasRecentRequest db a h now = false) :
    getTimeUntilNextRequest db a h now = none := by
  have hnil : recentRows db a h now = [] := by
    unfold hasRecentRequest at hrec
    simpa using hrec
  simp [getTimeUntilNextRequest, hnil, maxCreatedAt]


/-! ## The shape of the handler's outcome -/

theorem WellFormed.or_missing (req : Request) :
    (req.address = none ∨ req.address = some "" ∨
      req.captchaToken = none ∨ req.captchaToken = some "") ∨
    ∃ a tok, WellFormed req a tok := by
  rcases req with ⟨address, token, ip⟩
  cases address with
  | none => exact Or.inl (Or.inl rfl)
  | some a =>
    cases token with
    | none => exact Or.inl (Or.inr (Or.inr (Or.inl rfl)))
    | some tok =>
      by_cases ha : a = ""
      · exact Or.inl (Or.inr (Or.inl (by simp [ha])))
      · by_cases ht : tok = ""
        · exact Or.inl (Or.inr (Or.inr (Or.inr (by simp [ht]))))
        · exact Or.inr ⟨a, tok, rfl, ha, rfl, ht⟩

theorem requestDisbursement_missing (env : Env) (db : Ledger) (req : Request) (clock : Clock)
    (h : req.address = none ∨ req.address = some "" ∨
      req.captchaToken = none ∨ req.captchaToken = some "") :
    requestDisbursement env db req clock =
      ⟨Kind.missingField,
        Response.failure 400 "Missing required fields: address and captchaToken are required",
        db, []⟩ := by
  have hf : (!truthyStr req.address || !truthyStr req.captchaToken) = true := by
    rcases h with h | h | h | h <;> simp [h, truthyStr]
  unfold requestDisbursement
  rw [if_pos hf]

theorem requestDisbursement_wellFormed (env : Env) (db : Ledger) (req : Request)
    (clock : Clock) (a tok : String) (hw : WellFormed req a tok) :
    requestDisbursement env db req clock =
      if !isValidAddress env.chain a then
        ⟨Kind.invalidAddress, Response.failure 400 "Invalid Ethereum address format", db,
          [Call.isAddress a]⟩
      else if hasRecentRequest db a (rateLimitHours env.config) clock.check then
        match getTimeUntilNextRequest db a (rateLimitHours env.config) clock.info with
        | some timeInfo =>
          ⟨Kind.rateLimited, rateLimitedResponse (rateLimitHours env.config) timeInfo, db,
            [Call.isAddress a, Call.hasRecentRequest a (rateLimitHours env.config),
              Call.getTimeUntilNextRequest a (rateLimitHours env.config)]⟩
        | none =>
          ⟨Kind.internalError, Response.failure 500 "Internal server error", db,
            [Call.isAddress a, Call.hasRecentRequest a (rateLimitHours env.config),
              Call.getTimeUntilNextRequest a (rateLimitHours env.config)]⟩
      else
        disburse env db a tok req.clientIp clock
          [Call.isAddress a, Call.hasRecentRequest a (rateLimitHours env.config)] := by
  obtain ⟨ha, ha0, ht, ht0⟩ := hw
  have hf : (!truthyStr req.address || !truthyStr req.captchaToken) = false := by
    simp [ha, ht, truthyStr, ha0, ht0]
  unfold requestDisbursement
  rw [hf, ha, ht]
  rfl

theorem disburse_kind (env : Env) (db : Ledger) (a tok : String) (ip : Option String)
    (clock : Clock) (pre : List Call) :
    ((disburse env db a tok ip clock pre).kind = Kind.verificationFailed ∧
      (disburse env db a tok ip clock pre).db = db ∧
      ∃ msg, env.verifyToken tok ip = .error msg ∧
        (disburse env db a tok ip clock pre).response = Response.failure 400 msg ∧
        (disburse env db a tok ip clock pre).calls = pre ++ [Call.verifyToken tok ip]) ∨
    ((disburse env db a tok ip clock pre).kind = Kind.success ∧
      ∃ r sent, sendTransaction env.chain a (.value (faucetAmount env.config)) = (.ok r, sent) ∧
        env.verifyToken tok ip = .ok () ∧
        (disburse env db a tok ip clock pre).response =
          successResponse env.chain a (faucetAmount env.config) r ∧
        (disburse env db a tok ip clock pre).db =
          (updateRequestWithTx
            (recordRequest db a (env.chain.numberToString (faucetAmount env.config)) none
              "pending" none clock.insert) a r.txHash).1) ∨
    ((disburse env db a tok ip clock pre).kind = Kind.submissionFailed ∧
      ∃ msg sent,
        sendTransaction env.chain a (.value (faucetAmount env.config)) = (.error msg, sent) ∧
        env.verifyToken tok ip = .ok () ∧
        (disburse env db a tok ip clock pre).response = Response.failure 500 msg ∧
        (disburse env db a tok ip clock pre).db =
          (updateRequestWithError
            (recordRequest db a (env.chain.numberToString (faucetAmount env.config)) none
              "pending" none clock.insert) a msg).1) := by
  simp only [disburse]
  cases hv : env.verifyToken tok ip with
  | error msg => exact Or.inl ⟨rfl, rfl, msg, rfl, rfl, rfl⟩
  | ok u =>
    cases u
    rcases hs : sendTransaction env.chain a (.value (faucetAmount env.config)) with ⟨res, sent⟩
    cases res with
    | ok r =>
      exact Or.inr (Or.inl ⟨rfl, r, sent, rfl, rfl, rfl, rfl⟩)
    | error msg =>
      exact Or.inr (Or.inr ⟨rfl, msg, sent, rfl, rfl, rfl, rfl⟩)

/-- Every rate-limited outcome comes from the 429 branch: a well-formed request for a
valid address with a record inside the window at both throttling queries. -/
theorem rateLimited_inv (env : Env) (db : Ledger) (req : Request) (clock : Clock)
    (h : (requestDisbursement env db req clock).kind = Kind.rateLimited) :
    ∃ a tok t, WellFormed req a tok ∧ isValidAddress env.chain a = true ∧
      hasRecentRequest db a (rateLimitHours env.config) clock.check = true ∧
      getTimeUntilNextRequest db a (rateLimitHours env.config) clock.info = some t ∧
      requestDisbursement env db req clock =
        ⟨Kind.rateLimited, rateLimitedResponse (rateLimitHours env.config) t, db,
          [Call.isAddress a, Call.hasRecentRequest a (rateLimitHours env.config),
            Call.getTimeUntilNextRequest a (rateLimitHours env.config)]⟩ := by
  rcases WellFormed.or_missing req with hm | ⟨a, tok, hw⟩
  · rw [requestDisbursement_missing env db req clock hm] at h
    simp at h
  · rw [requestDisbursement_wellFormed env db req clock a tok hw] at h ⊢
    cases hv : isValidAddress env.chain a with
    | false => simp [hv] at h
    | true =>
      cases hr : hasRecentRequest db a (rateLimitHours env.config) clock.check with
      | false =>
        simp only [hv, hr, Bool.not_true, Bool.false_eq_true, if_false] at h
        rcases disburse_kind env db a tok req.clientIp clock
          [Call.isAddress a, Call.hasRecentRequest a (rateLimitHours env.config)] with
          hk | hk | hk
        · rw [hk.1] at h; simp at h
        · rw [hk.1] at h; simp at h
        · rw [hk.1] at h; simp at h
      | true =>
        cases hg : getTimeUntilNextRequest db a (rateLimitHours env.config) clock.info with
        | none => simp [hv, hr, hg] at h
        | some t =>
          refine ⟨a, tok, t, hw, hv, hr, hg, ?_⟩
          simp [hv, hr, hg]

/-! ## The rows an `UPDATE` selects -/

theorem isLatest_iff (db : Ledger) (a : String) (r : Row) (hr : r ∈ db) :
    isLatest db a r = true ↔ IsLatestOf db a r := by
  unfold isLatest IsLatestOf latestCreatedAt
  simp only [Bool.and_eq_true, decide_eq_true_eq]
  constructor
  · rintro ⟨hra, hmax⟩
    refine ⟨hra, ?_⟩
    intro x hx hxa
    exact maxCreatedAt_ge _ _ hmax.symm x (List.mem_filter.2 ⟨hx, by simpa using hxa⟩)
  · rintro ⟨hra, hmax⟩
    refine ⟨hra, ?_⟩
    have hrf : r ∈ db.filter (fun r => decide (r.address = a)) :=
      List.mem_filter.2 ⟨hr, by simpa using hra⟩
    cases hm : maxCreatedAt (db.filter (fun r => decide (r.address = a))) with
    | none =>
      rw [(maxCreatedAt_eq_none_iff _).1 hm] at hrf
      simp at hrf
    | some c =>
      obtain ⟨x, hx, hxc⟩ := maxCreatedAt_mem _ c hm
      have hx2 := List.mem_filter.1 hx
      have h1 : x.created_at ≤ r.created_at := hmax x hx2.1 (by simpa using hx2.2)
      have h2 : r.created_at ≤ c := maxCreatedAt_ge _ c hm r hrf
      have : r.created_at = c := by omega
      rw [this]

theorem isLatest_address (db : Ledger) (a : String) (r : Row) (h : isLatest db a r = true) :
    r.address = a := by
  unfold isLatest at h
  simp only [Bool.and_eq_true, decide_eq_true_eq] at h
  exact h.1

theorem mem_zip_map_self {α : Type} (f : α → α) (l : List α) (p : α × α)
    (hp : p ∈ l.zip (l.map f)) : p.1 ∈ l ∧ p.2 = f p.1 := by
  induction l with
  | nil => simp at hp
  | cons x xs ih =>
    simp only [List.map_cons, List.zip_cons_cons, List.mem_cons] at hp
    rcases hp with hp | hp
    · subst hp
      exact ⟨List.mem_cons_self _ _, rfl⟩
    · exact ⟨List.mem_cons_of_mem _ (ih hp).1, (ih hp).2⟩

theorem latestCreatedAt_eq_none_iff (db : Ledger) (a : String) :
    latestCreatedAt db a = none ↔ ∀ r ∈ db, r.address ≠ a := by
  unfold latestCreatedAt
  rw [maxCreatedAt_eq_none_iff, List.filter_eq_nil_iff]
  simp

theorem filter_isLatest_length (db : Ledger) (a : String) (c : Int)
    (hc : latestCreatedAt db a = some c) :
    (db.filter (isLatest db a)).length =
      ((db.filter (fun r => decide (r.address = a))).map Row.created_at).count c := by
  have hfun : isLatest db a = fun r => decide (r.address = a) && decide (r.created_at = c) := by
    funext r
    unfold isLatest
    rw [hc]
    simp
  rw [hfun, List.count_eq_countP, List.countP_map, List.countP_eq_length_filter,
    List.filter_filter]
  congr 1
  apply List.filter_congr
  intro x _
  by_cases h1 : x.created_at = c <;> by_cases h2 : x.address = a <;> simp [h1, h2]

/-- The common shape of the two `UPDATE` statements: with `set` the assignment of the
`SET` clause, exactly the rows of `address` with the greatest `created_at` are rewritten. -/
theorem update_frame (db : Ledger) (a : String) (set : Row → Row) :
    (db.map (fun r => if isLatest db a r then set r else r)).length = db.length ∧
    (∀ p ∈ db.zip (db.map (fun r => if isLatest db a r then set r else r)),
      (IsLatestOf db a p.1 → p.2 = set p.1) ∧
      (¬ IsLatestOf db a p.1 → p.2 = p.1) ∧
      (p.1.address ≠ a → p.2 = p.1)) ∧
    ((∀ r ∈ db, r.address ≠ a) →
      db.map (fun r => if isLatest db a r then set r else r) = db ∧
      (db.filter (isLatest db a)).length = 0) ∧
    ((∃ r ∈ db, r.address = a) →
      ((db.filter (fun r => decide (r.address = a))).map Row.created_at).Nodup →
      (db.filter (isLatest db a)).length = 1) ∧
    (db.filter (isLatest db a)).length =
      (db.filter (fun r => decide (r.address = a ∧
        ∀ x ∈ db, x.address = a → x.created_at ≤ r.created_at))).length := by
  refine ⟨List.length_map _ _, ?_, ?_, ?_, ?_⟩
  · intro p hp
    obtain ⟨hmem, hval⟩ := mem_zip_map_self _ db p hp
    have hiff := isLatest_iff db a p.1 hmem
    refine ⟨?_, ?_, ?_⟩
    · intro hl
      rw [hval, if_pos (hiff.2 hl)]
    · intro hl
      have : ¬ isLatest db a p.1 = true := fun h => hl (hiff.1 h)
      rw [hval, if_neg this]
    · intro hne
      have : ¬ isLatest db a p.1 = true := fun h => hne (isLatest_address db a p.1 h)
      rw [hval, if_neg this]
  · intro hno
    have hall : ∀ r ∈ db, ¬ isLatest db a r = true :=
      fun r hr h => hno r hr (isLatest_address db a r h)
    constructor
    · conv_rhs => rw [← List.map_id db]
      apply List.map_congr_left
      intro r hr
      rw [if_neg (hall r hr)]
      rfl
    · rw [List.length_eq_zero, List.filter_eq_nil_iff]
      exact hall
  · rintro ⟨r, hr, hra⟩ hnd
    cases hc : latestCreatedAt db a with
    | none => exact absurd hra ((latestCreatedAt_eq_none_iff db a).1 hc r hr)
    | some c =>
      rw [filter_isLatest_length db a c hc]
      apply List.count_eq_one_of_mem hnd
      obtain ⟨x, hx, hxc⟩ := maxCreatedAt_mem _ c hc
      exact List.mem_map.2 ⟨x, hx, hxc⟩
  · apply congrArg
    apply List.filter_congr
    intro r hr
    have hiff := isLatest_iff db a r hr
    unfold IsLatestOf at hiff
    by_cases h : isLatest db a r = true
    · rw [h]
      exact (decide_eq_true (hiff.1 h)).symm
    · rw [Bool.eq_false_iff.2 h]
      exact (decide_eq_false (fun hc => h (hiff.2 hc))).symm

/-! ## The accepted path: pending record, submission, reconciliation -/

theorem rateLimitHours_ne_zero (cfg : Config) : rateLimitHours cfg ≠ 0 := by
  unfold rateLimitHours
  cases cfg.RATE_LIMIT_HOURS with
  | none => decide
  | some h =>
    by_cases h0 : h = 0
    · simp [h0]
    · simp only [ne_eq, h0, not_false_eq_true, if_true]

/-- Both `UPDATE` statements leave address and `created_at` alone, so the latest records of
the address afterwards are the rewritten latest records of before. -/
theorem update_latest_rows (db : Ledger) (a : String) (set : Row → Row)
    (hset : ∀ r, (set r).address = r.address ∧ (set r).created_at = r.created_at)
    (hex : ∃ r ∈ db, r.address = a) :
    (∃ r ∈ db.map (fun r => if isLatest db a r then set r else r),
      IsLatestOf (db.map (fun r => if isLatest db a r then set r else r)) a r) ∧
    (∀ x ∈ db.map (fun r => if isLatest db a r then set r else r),
      IsLatestOf (db.map (fun r => if isLatest db a r then set r else r)) a x →
        ∃ r ∈ db, IsLatestOf db a r ∧ x = set r) := by
  have hkeep : ∀ r : Row,
      (if isLatest db a r then set r else r).address = r.address ∧
      (if isLatest db a r then set r else r).created_at = r.created_at := by
    intro r
    by_cases h : isLatest db a r = true
    · rw [if_pos h]
      exact hset r
    · rw [if_neg h]
      exact ⟨rfl, rfl⟩
  have hback : ∀ x ∈ db.map (fun r => if isLatest db a r then set r else r),
      IsLatestOf (db.map (fun r => if isLatest db a r then set r else r)) a x →
        ∃ r ∈ db, IsLatestOf db a r ∧ x = set r := by
    intro x hx hl
    obtain ⟨r, hr, hrx⟩ := List.mem_map.1 hx
    have hlr : IsLatestOf db a r := by
      refine ⟨?_, ?_⟩
      · rw [← (hkeep r).1, hrx]
        exact hl.1
      · intro y hy hya
        have h1 := hl.2 _ (List.mem_map.2 ⟨y, hy, rfl⟩) (by rw [(hkeep y).1]; exact hya)
        rw [(hkeep y).2, ← hrx, (hkeep r).2] at h1
        exact h1
    refine ⟨r, hr, hlr, ?_⟩
    rw [← hrx, if_pos ((isLatest_iff db a r hr).2 hlr)]
  refine ⟨?_, hback⟩
  obtain ⟨r0, hr0, hr0a⟩ := hex
  cases hc : latestCreatedAt db a with
  | none => exact absurd hr0a ((latestCreatedAt_eq_none_iff db a).1 hc r0 hr0)
  | some c =>
    obtain ⟨x, hx, hxc⟩ := maxCreatedAt_mem _ c hc
    have hx2 := List.mem_filter.1 hx
    have hxa : x.address = a := by simpa using hx2.2
    have hlx : IsLatestOf db a x := by
      refine ⟨hxa, ?_⟩
      intro y hy hya
      rw [hxc]
      exact maxCreatedAt_ge _ c hc y (List.mem_filter.2 ⟨hy, by simpa using hya⟩)
    refine ⟨_, List.mem_map.2 ⟨x, hx2.1, rfl⟩, ?_, ?_⟩
    · rw [(hkeep x).1]
      exact hxa
    · intro y hy hya
      obtain ⟨z, hz, hzy⟩ := List.mem_map.1 hy
      rw [← hzy, (hkeep z).2, (hkeep x).2]
      exact hlx.2 z hz (by rw [← (hkeep z).1, hzy]; exact hya)

/-- When every record of the address is older than the inserted one, the `UPDATE` that
follows the `INSERT` rewrites the inserted record and nothing else. -/
theorem update_after_record (db : Ledger) (a amount status : String) (t : Int)
    (set : Row → Row) (hold : ∀ r ∈ db, r.address = a → r.created_at < t) :
    (recordRequest db a amount none status none t).map
        (fun r => if isLatest (recordRequest db a amount none status none t) a r
          then set r else r) =
      db ++ [set ⟨nextId db, a, none, amount, status, none, t⟩] := by
  have hnew : isLatest (recordRequest db a amount none status none t) a
      ⟨nextId db, a, none, amount, status, none, t⟩ = true := by
    rw [isLatest_iff _ _ _ (by simp [recordRequest])]
    refine ⟨rfl, ?_⟩
    intro x hx hxa
    simp only [recordRequest, List.mem_append, List.mem_singleton] at hx
    rcases hx with hx | hx
    · exact le_of_lt (hold x hx hxa)
    · rw [hx]
  have hrest : ∀ r ∈ db,
      ¬ isLatest (recordRequest db a amount none status none t) a r = true := by
    intro r hr hl
    rw [isLatest_iff _ _ _ (by simp [recordRequest, hr])] at hl
    have h1 := hl.2 ⟨nextId db, a, none, amount, status, none, t⟩ (by simp [recordRequest]) rfl
    have h2 := hold r hr hl.1
    simp only at h1
    omega
  have hmap : db.map (fun r => if isLatest (recordRequest db a amount none status none t) a r
      then set r else r) = db := by
    conv_rhs => rw [← List.map_id db]
    apply List.map_congr_left
    intro r hr
    rw [if_neg (hrest r hr)]
    rfl
  show (db ++ [(⟨nextId db, a, none, amount, status, none, t⟩ : Row)]).map
      (fun r => if isLatest (recordRequest db a amount none status none t) a r
        then set r else r) = _
  rw [List.map_append, hmap, List.map_cons, List.map_nil, if_pos hnew]

/-- A request that passes a throttle check whose window start SQLite represents finds
every record of its address at least one window older than the check, hence older than
the record it inserts. -/
theorem older_of_not_recent (db : Ledger) (a : String) (hours : Int) (clock : Clock)
    (h0 : 0 < hours) (hrep : Representable (clock.check - hours * 3600))
    (hmono : clock.Monotone)
    (hrec : hasRecentRequest db a hours clock.check = false) :
    ∀ r ∈ db, r.address = a → r.created_at < clock.insert := by
  intro r hr hra
  have hw := windowStart_of_representable clock.check hours (le_of_lt h0) hrep
  have h1 := (hasRecentRequest_false_iff db a hours clock.check _ hw).1 hrec r hr hra
  have h3 : clock.check ≤ clock.insert := hmono
  omega

/-- The outcome of an accepted request whose throttle check orders the records. -/
theorem requestDisbursement_accepted (env : Env) (db : Ledger) (req : Request)
    (clock : Clock) (a tok : String) (hw : WellFormed req a tok)
    (hv : isValidAddress env.chain a = true)
    (hrec : hasRecentRequest db a (rateLimitHours env.config) clock.check = false)
    (ho : Orderly env clock) :
    ((requestDisbursement env db req clock).kind = Kind.verificationFailed ∧
      (requestDisbursement env db req clock).db = db ∧
      ∃ msg, env.verifyToken tok req.clientIp = .error msg ∧
        (requestDisbursement env db req clock).response = Response.failure 400 msg) ∨
    ((requestDisbursement env db req clock).kind = Kind.success ∧
      ∃ r sent, sendTransaction env.chain a (.value (faucetAmount env.config)) = (.ok r, sent) ∧
        env.verifyToken tok req.clientIp = .ok () ∧
        (requestDisbursement env db req clock).response =
          successResponse env.chain a (faucetAmount env.config) r ∧
        (requestDisbursement env db req clock).db =
          db ++ [⟨nextId db, a, some r.txHash,
            env.chain.numberToString (faucetAmount env.config), "completed", none,
            clock.insert⟩]) ∨
    ((requestDisbursement env db req clock).kind = Kind.submissionFailed ∧
      ∃ msg sent,
        sendTransaction env.chain a (.value (faucetAmount env.config)) = (.error msg, sent) ∧
        env.verifyToken tok req.clientIp = .ok () ∧
        (requestDisbursement env db req clock).response = Response.failure 500 msg ∧
        (requestDisbursement env db req clock).db =
          db ++ [⟨nextId db, a, none,
            env.chain.numberToString (faucetAmount env.config), "failed", some msg,
            clock.insert⟩]) := by
  have hold := older_of_not_recent db a (rateLimitHours env.config) clock
    ho.1 ho.2.1 ho.2.2 hrec
  rw [requestDisbursement_wellFormed env db req clock a tok hw]
  simp only [hv, hrec, Bool.not_true, Bool.false_eq_true, if_false]
  rcases disburse_kind env db a tok req.clientIp clock
    [Call.isAddress a, Call.hasRecentRequest a (rateLimitHours env.config)] with hk | hk | hk
  · obtain ⟨h1, h2, msg, h3, h4, _⟩ := hk
    exact Or.inl ⟨h1, h2, msg, h3, h4⟩
  · obtain ⟨h1, r, sent, h2, h3, h4, h5⟩ := hk
    refine Or.inr (Or.inl ⟨h1, r, sent, h2, h3, h4, ?_⟩)
    rw [h5]
    exact update_after_record db a _ "pending" clock.insert
      (fun x => ⟨x.id, x.address, some r.txHash, x.amount, "completed", x.error_message,
        x.created_at⟩) hold
  · obtain ⟨h1, msg, sent, h2, h3, h4, h5⟩ := hk
    refine Or.inr (Or.inr ⟨h1, msg, sent, h2, h3, h4, ?_⟩)
    rw [h5]
    exact update_after_record db a _ "pending" clock.insert
      (fun x => ⟨x.id, x.address, x.tx_hash, x.amount, "failed", some msg,
        x.created_at⟩) hold

/-- A well-formed request for a valid address that finds a record of the address inside
the window at both throttling queries, the start of the window being an instant SQLite
represents at both, is answered 429 with the time computed from the newest record of the
address. -/
theorem requestDisbursement_rateLimited (env : Env) (db : Ledger) (req : Request)
    (clock : Clock) (a tok : String) (hw : WellFormed req a tok)
    (hv : isValidAddress env.chain a = true)
    (r : Row) (hr : r ∈ db) (hra : r.address = a)
    (h0 : 0 ≤ rateLimitHours env.config)
    (hrep1 : Representable (clock.check - rateLimitHours env.config * 3600))
    (hrep2 : Representable (clock.info - rateLimitHours env.config * 3600))
    (hcheck : r.created_at > clock.check - rateLimitHours env.config * 3600)
    (hinfo : r.created_at > clock.info - rateLimitHours env.config * 3600) :
    ∃ (c : Int) (t : TimeInfo), (∃ x ∈ db, x.address = a ∧ x.created_at = c) ∧
      (∀ x ∈ db, x.address = a → x.created_at ≤ c) ∧
      t.lastRequest = c ∧
      (Representable (c + rateLimitHours env.config * 3600) →
        t = ⟨c, some (c + rateLimitHours env.config * 3600),
          Int.toNat (c + rateLimitHours env.config * 3600 - clock.info)⟩) ∧
      getTimeUntilNextRequest db a (rateLimitHours env.config) clock.info = some t ∧
      requestDisbursement env db req clock =
        ⟨Kind.rateLimited, rateLimitedResponse (rateLimitHours env.config) t, db,
          [Call.isAddress a, Call.hasRecentRequest a (rateLimitHours env.config),
            Call.getTimeUntilNextRequest a (rateLimitHours env.config)]⟩ := by
  have h1 : hasRecentRequest db a (rateLimitHours env.config) clock.check = true :=
    (hasRecentRequest_iff _ _ _ _).2
      ⟨_, windowStart_of_representable _ _ h0 hrep1, r, hr, hra, hcheck⟩
  have h2 : hasRecentRequest db a (rateLimitHours env.config) clock.info = true :=
    (hasRecentRequest_iff _ _ _ _).2
      ⟨_, windowStart_of_representable _ _ h0 hrep2, r, hr, hra, hinfo⟩
  obtain ⟨start, c, _, hex, hmax, _, hc⟩ := getTimeUntilNextRequest_of_recent _ _ _ _ h2
  cases he : windowEnd c (rateLimitHours env.config) with
  | none =>
    rw [he] at hc
    refine ⟨c, ⟨c, none, 0⟩, hex, hmax, rfl, ?_, hc, ?_⟩
    · intro hrep
      rw [windowEnd_of_representable _ _ h0 hrep] at he
      simp at he
    · rw [requestDisbursement_wellFormed env db req clock a tok hw]
      simp [hv, h1, hc]
  | some next =>
    rw [he] at hc
    refine ⟨c, ⟨c, some next, Int.toNat (next - clock.info)⟩, hex, hmax, rfl, ?_, hc, ?_⟩
    · intro hrep
      rw [windowEnd_of_representable _ _ h0 hrep] at he
      simp only [Option.some.injEq] at he
      rw [← he]
    · rw [requestDisbursement_wellFormed env db req clock a tok hw]
      simp [hv, h1, hc]

theorem sendTransaction_fst (eth : Chain) (a : String) (amount : JsAmount) :
    (sendTransaction eth a amount).1 =
      match (trySendTransaction eth a amount).1 with
      | .ok r => .ok r
      | .error e => .error (classifyError e) := by
  unfold sendTransaction
  rcases trySendTransaction eth a amount with ⟨res, calls⟩
  cases res <;> rfl

/-- Every outcome either leaves the ledger as it was, or comes from a well-formed request
for a valid address that passed the throttle check and the verification. -/
theorem requestDisbursement_cases (env : Env) (db : Ledger) (req : Request) (clock : Clock) :
    ((requestDisbursement env db req clock).db = db ∧
      (requestDisbursement env db req clock).kind ≠ Kind.success ∧
      (requestDisbursement env db req clock).kind ≠ Kind.submissionFailed) ∨
    (∃ a tok, WellFormed req a tok ∧ isValidAddress env.chain a = true ∧
      hasRecentRequest db a (rateLimitHours env.config) clock.check = false ∧
      ((requestDisbursement env db req clock).kind = Kind.success ∨
        (requestDisbursement env db req clock).kind = Kind.submissionFailed)) := by
  rcases WellFormed.or_missing req with hm | ⟨a, tok, hw⟩
  · rw [requestDisbursement_missing env db req clock hm]
    exact Or.inl ⟨rfl, by simp, by simp⟩
  · rw [requestDisbursement_wellFormed env db req clock a tok hw]
    cases hv : isValidAddress env.chain a with
    | false => exact Or.inl (by simp)
    | true =>
      cases hr : hasRecentRequest db a (rateLimitHours env.config) clock.check with
      | true =>
        cases hg : getTimeUntilNextRequest db a (rateLimitHours env.config) clock.info with
        | none => exact Or.inl (by simp [hg])
        | some t => exact Or.inl (by simp [hg])
      | false =>
        simp only [Bool.not_true, Bool.false_eq_true, if_false]
        rcases disburse_kind env db a tok req.clientIp clock
          [Call.isAddress a, Call.hasRecentRequest a (rateLimitHours env.config)] with
          hk | hk | hk
        · exact Or.inl ⟨hk.2.1, by rw [hk.1]; simp, by rw [hk.1]; simp⟩
        · exact Or.inr ⟨a, tok, hw, hv, hr, Or.inl hk.1⟩
        · exact Or.inr ⟨a, tok, hw, hv, hr, Or.inr hk.1⟩

/-- One request whose throttle check orders the records: the ledger is unchanged, or one record is
appended, inserted as `pending` and rewritten once, by the `UPDATE` that follows, into
`completed` or `failed`. -/
theorem requestDisbursement_step (env : Env) (db : Ledger) (req : Request) (clock : Clock)
    (ho : Orderly env clock) :
    ((requestDisbursement env db req clock).db = db ∧
      (requestDisbursement env db req clock).kind ≠ Kind.success ∧
      (requestDisbursement env db req clock).kind ≠ Kind.submissionFailed) ∨
    ∃ a amount p, req.address = some a ∧
      (∀ r ∈ db, r.address = a → r.created_at < clock.insert) ∧
      p = ⟨nextId db, a, none, amount, "pending", none, clock.insert⟩ ∧
      recordRequest db a amount none "pending" none clock.insert = db ++ [p] ∧
      ((∃ tx, (requestDisbursement env db req clock).kind = Kind.success ∧
          (requestDisbursement env db req clock).db =
            (updateRequestWithTx (db ++ [p]) a tx).1 ∧
          (requestDisbursement env db req clock).db =
            db ++ [⟨p.id, p.address, some tx, p.amount, "completed", p.error_message,
              p.created_at⟩]) ∨
        (∃ msg, (requestDisbursement env db req clock).kind = Kind.submissionFailed ∧
          (requestDisbursement env db req clock).response = Response.failure 500 msg ∧
          (requestDisbursement env db req clock).db =
            (updateRequestWithError (db ++ [p]) a msg).1 ∧
          (requestDisbursement env db req clock).db =
            db ++ [⟨p.id, p.address, p.tx_hash, p.amount, "failed", some msg,
              p.created_at⟩])) := by
  rcases requestDisbursement_cases env db req clock with h | ⟨a, tok, hw, hv, hrec, hk⟩
  · exact Or.inl h
  · have hold := older_of_not_recent db a (rateLimitHours env.config) clock
      ho.1 ho.2.1 ho.2.2 hrec
    refine Or.inr ⟨a, env.chain.numberToString (faucetAmount env.config), _, hw.1, hold,
      rfl, rfl, ?_⟩
    rcases requestDisbursement_accepted env db req clock a tok hw hv hrec ho with
      h | h | h
    · rcases hk with hk | hk <;> rw [h.1] at hk <;> simp at hk
    · obtain ⟨h1, r, sent, _, _, _, h5⟩ := h
      refine Or.inl ⟨r.txHash, h1, ?_, h5⟩
      rw [h5]
      exact (update_after_record db a _ "pending" clock.insert
        (fun x => ⟨x.id, x.address, some r.txHash, x.amount, "completed", x.error_message,
          x.created_at⟩) hold).symm
    · obtain ⟨h1, msg, sent, _, _, h4, h5⟩ := h
      refine Or.inr ⟨msg, h1, h4, ?_, h5⟩
      rw [h5]
      exact (update_after_record db a _ "pending" clock.insert
        (fun x => ⟨x.id, x.address, x.tx_hash, x.amount, "failed", some msg,
          x.created_at⟩) hold).symm

theorem runRequests_append (db : Ledger) (s m : List (Env × Request × Clock)) :
    runRequests db (s ++ m) = runRequests (runRequests db s) m := by
  induction s generalizing db with
  | nil => rfl
  | cons x xs ih =>
    obtain ⟨env, req, clock⟩ := x
    simp only [List.cons_append, runRequests]
    exact ih _

theorem runRequests_prefix (db : Ledger) (m : List (Env × Request × Clock))
    (hm : ∀ s ∈ m, Orderly s.1 s.2.2) : db <+: runRequests db m := by
  induction m generalizing db with
  | nil => exact List.prefix_refl _
  | cons x xs ih =>
    obtain ⟨env, req, clock⟩ := x
    simp only [runRequests]
    have hx : Orderly env clock := hm (env, req, clock) (List.mem_cons_self _ _)
    have hrest := ih (requestDisbursement env db req clock).db
      (fun s hs => hm s (List.mem_cons_of_mem _ hs))
    refine List.IsPrefix.trans ?_ hrest
    rcases requestDisbursement_step env db req clock hx with h | ⟨a, amount, p, _, _, _, _, h⟩
    · rw [h.1]
    · rcases h with ⟨tx, _, _, h⟩ | ⟨msg, _, _, _, h⟩ <;> rw [h] <;>
        exact List.prefix_append _ _

theorem runRequests_terminal (db : Ledger) (m : List (Env × Request × Clock))
    (hm : ∀ s ∈ m, Orderly s.1 s.2.2) (hdb : ∀ r ∈ db, Terminal r) :
    ∀ r ∈ runRequests db m, Terminal r := by
  induction m generalizing db with
  | nil => exact hdb
  | cons x xs ih =>
    obtain ⟨env, req, clock⟩ := x
    simp only [runRequests]
    have hx : Orderly env clock := hm (env, req, clock) (List.mem_cons_self _ _)
    apply ih _ (fun s hs => hm s (List.mem_cons_of_mem _ hs))
    rcases requestDisbursement_step env db req clock hx with h | ⟨a, amount, p, _, _, _, _, h⟩
    · rw [h.1]
      exact hdb
    · rcases h with ⟨tx, _, _, h⟩ | ⟨msg, _, _, _, h⟩
      · rw [h]
        intro r hr
        rcases List.mem_append.1 hr with hr | hr
        · exact hdb r hr
        · simp only [List.mem_singleton] at hr
          subst hr
          exact Or.inl rfl
      · rw [h]
        intro r hr
        rcases List.mem_append.1 hr with hr | hr
        · exact hdb r hr
        · simp only [List.mem_singleton] at hr
          subst hr
          exact Or.inr rfl

/-! ## Verification client lemmas -/

/-- The part of the pass-through that holds: a list of codes none of which names an
inherited property yields the table text of each known code and every other code
unchanged, joined by `', '` in order. -/
theorem getErrorMessage_of_plain_codes (proto : ObjectPrototype) (codes : List String)
    (hplain : ∀ c ∈ codes, proto c = none) :
    (codes = [] → getErrorMessage proto codes = "Unknown error") ∧
    (codes ≠ [] → getErrorMessage proto codes =
      ", ".intercalate (codes.map (fun c => (errorMessages.lookup c).getD c))) ∧
    (∀ c, errorMessages.lookup c = none → proto c = none → messageFor proto c = c) := by
  refine ⟨?_, ?_, ?_⟩
  · intro h
    subst h
    rfl
  · intro h
    have hlen : ¬ codes.length = 0 := by
      intro h0
      exact h (List.length_eq_zero.1 h0)
    unfold getErrorMessage
    rw [if_neg hlen]
    congr 1
    apply List.map_congr_left
    intro c hc
    unfold messageFor
    cases hl : errorMessages.lookup c with
    | none => simp [hplain c hc]
    | some text =>
      have hne : text ≠ "" := by
        simp only [errorMessages, List.lookup] at hl
        repeat' split at hl
        all_goals first
          | (simp only [Option.some.injEq] at hl; subst hl; decide)
          | simp at hl
      simp [hne]
  · intro c h1 h2
    simp [messageFor, h1, h2]

/-- What `verifyToken` does on each upstream outcome. -/
theorem verifyToken_spec (proto : ObjectPrototype) (post : Siteverify)
    (secretKey token : String) (remoteIp : Option String) :
    (∀ data, post secretKey token (if truthyStr remoteIp then remoteIp else none) = .ok data →
      (data.success = false →
        verifyToken proto post secretKey token remoteIp =
          .error ⟨.transportError,
            "reCAPTCHA verification error: " ++ rejectionMessage proto data⟩) ∧
      (data.success = true →
        verifyToken proto post secretKey token remoteIp =
          .ok ⟨true, scoreOrNull data.score, actionOrNull data.action⟩)) ∧
    (∀ e, post secretKey token (if truthyStr remoteIp then remoteIp else none) = .error e →
      (∀ status statusText, e.response = some (status, statusText) →
        verifyToken proto post secretKey token remoteIp =
          .error ⟨.serviceError,
            "reCAPTCHA API error: " ++ toString status ++ " " ++ statusText⟩) ∧
      (e.response = none → e.code = some "ECONNABORTED" →
        verifyToken proto post secretKey token remoteIp =
          .error ⟨.timeout, "reCAPTCHA verification timeout"⟩) ∧
      (e.response = none → e.code ≠ some "ECONNABORTED" →
        verifyToken proto post secretKey token remoteIp =
          .error ⟨.transportError, "reCAPTCHA verification error: " ++ e.message⟩)) ∧
    (∀ err, verifyToken proto post secretKey token remoteIp = .error err →
      err.kind ≠ .invalidToken) := by
  refine ⟨?_, ?_, ?_⟩
  · intro data hd
    constructor
    · intro hs
      simp [verifyToken, tryVerifyToken, hd, hs, rethrow]
    · intro hs
      simp [verifyToken, tryVerifyToken, hd, hs]
  · intro e he
    refine ⟨?_, ?_, ?_⟩
    · intro status statusText hr
      simp [verifyToken, tryVerifyToken, he, rethrow, hr]
    · intro hr hc
      simp [verifyToken, tryVerifyToken, he, rethrow, hr, hc]
    · intro hr hc
      simp [verifyToken, tryVerifyToken, he, rethrow, hr, hc]
  · intro err herr
    unfold verifyToken at herr
    cases ht : tryVerifyToken proto post secretKey token remoteIp with
    | ok r =>
      rw [ht] at herr
      simp at herr
    | error e =>
      rw [ht] at herr
      simp only [Except.error.injEq] at herr
      subst herr
      unfold rethrow
      rcases e with ⟨response, code, message⟩
      cases response with
      | some p => simp
      | none =>
        by_cases hc : code = some "ECONNABORTED"
        · simp [hc]
        · simp [hc]

/-! ## Status lookup lemmas -/

theorem isHexDigit_iff (c : Char) :
    isHexDigit c = true ↔ c ∈ "0123456789abcdefABCDEF".toList := by
  constructor
  · intro h
    unfold isHexDigit at h
    simp only [Bool.or_eq_true, Bool.and_eq_true, decide_eq_true_eq] at h
    rw [← Char.ofNat_toNat c]
    generalize c.toNat = n at h
    rcases h with (⟨h1, h2⟩ | ⟨h1, h2⟩) | ⟨h1, h2⟩ <;> interval_cases n <;> decide
  · intro h
    have h2 : c ∈ ['0', '1', '2', '3', '4', '5', '6', '7', '8', '9', 'a', 'b', 'c', 'd', 'e',
        'f', 'A', 'B', 'C', 'D', 'E', 'F'] := h
    simp only [List.mem_cons, List.mem_singleton, List.not_mem_nil, or_false] at h2
    rcases h2 with h | h | h | h | h | h | h | h | h | h | h | h | h | h | h | h | h | h | h |
      h | h | h <;> subst h <;> decide

theorem matchesTxHash_iff (h : String) : matchesTxHash h = true ↔ IsTxHashFormat h := by
  rcases h with ⟨data⟩
  unfold matchesTxHash IsTxHashFormat
  simp only [String.length]
  match data with
  | [] => simp
  | [c] => simp
  | c1 :: c2 :: digits =>
    by_cases h1 : c1 = '0'
    · by_cases h2 : c2 = 'x'
      · subst h1 h2
        simp only [Bool.and_eq_true, decide_eq_true_eq, List.all_eq_true, List.length_cons,
          List.take_succ_cons, List.take_zero, List.drop_succ_cons, List.drop_zero, true_and]
        constructor
        · rintro ⟨hl, hall⟩
          exact ⟨by omega, fun c hc => (isHexDigit_iff c).1 (hall c hc)⟩
        · rintro ⟨hl, hall⟩
          exact ⟨by omega, fun c hc => (isHexDigit_iff c).2 (hall c hc)⟩
      · constructor
        · intro hm
          split at hm
          · rename_i heq
            simp only [List.cons.injEq] at heq
            exact absurd heq.2.1 h2
          · simp at hm
        · rintro ⟨_, ht, _⟩
          simp only [List.take_succ_cons, List.take_zero, List.cons.injEq, and_true] at ht
          exact absurd ht.2 h2
    · constructor
      · intro hm
        split at hm
        · rename_i heq
          simp only [List.cons.injEq] at heq
          exact absurd heq.1 h1
        · simp at hm
      · rintro ⟨_, ht, _⟩
        simp only [List.take_succ_cons, List.take_zero, List.cons.injEq, and_true] at ht
        exact absurd ht.1 h1

/-! ## Chain client lemmas -/

/-- What the validation of `sendTransaction` does: each rejection leaves through the last
branch of the `catch`, after the address check only. -/
theorem sendTransaction_validation (eth : Chain) (toAddress : String) (amount : JsAmount) :
    (isValidAddress eth toAddress = false →
      sendTransaction eth toAddress amount =
        (.error "Transaction failed: Invalid recipient address",
          [Call.isAddress toAddress])) ∧
    (isValidAddress eth toAddress = true →
      (amount = .undefined ∨ amount = .null) →
      sendTransaction eth toAddress amount =
        (.error "Transaction failed: Amount is required", [Call.isAddress toAddress])) ∧
    (isValidAddress eth toAddress = true →
      ∀ x, amount = .value x → (x = .nan ∨ x.leZero = true) →
      sendTransaction eth toAddress amount =
        (.error "Transaction failed: Invalid amount", [Call.isAddress toAddress])) := by
  refine ⟨?_, ?_, ?_⟩
  · intro hv
    simp [sendTransaction, trySendTransaction, hv, classifyError]
  · intro hv ha
    rcases ha with ha | ha <;> subst ha <;>
      simp [sendTransaction, trySendTransaction, hv, classifyError]
  · intro hv x ha hx
    subst ha
    have hbad : (x.isNaN || x.leZero) = true := by
      rcases hx with hx | hx
      · subst hx
        rfl
      · simp [hx]
    simp [sendTransaction, trySendTransaction, hv, hbad, classifyError]

/-- The transaction `sendTransaction` hands to the wallet is the one `buildTx` makes from
the parsed amount, the estimated gas limit and the fee data the provider resolved. -/
theorem sendTransaction_tx (eth : Chain) (toAddress : String) (amount : JsAmount) (tx : Tx)
    (h : Call.walletSendTransaction tx ∈ (sendTransaction eth toAddress amount).2) :
    ∃ text wei gasLimit feeData, eth.parseEther text = .ok wei ∧
      eth.getFeeData = .ok feeData ∧ eth.estimateGas toAddress wei = .ok gasLimit ∧
      tx = buildTx toAddress wei gasLimit feeData := by
  have hcalls : (sendTransaction eth toAddress amount).2 =
      (trySendTransaction eth toAddress amount).2 := by
    unfold sendTransaction
    rcases trySendTransaction eth toAddress amount with ⟨res, calls⟩
    cases res <;> rfl
  rw [hcalls] at h
  cases amount with
  | undefined =>
    unfold trySendTransaction at h
    split at h <;> simp at h
  | null =>
    unfold trySendTransaction at h
    split at h <;> simp at h
  | value x =>
    unfold trySendTransaction at h
    split at h
    · simp at h
    · simp only at h
      split at h
      · simp at h
      · cases hp : eth.parseEther (eth.numberToString x) with
        | error e =>
          rw [hp] at h
          simp at h
        | ok wei =>
          rw [hp] at h
          simp only at h
          cases hf : eth.getFeeData with
          | error e =>
            rw [hf] at h
            simp at h
          | ok feeData =>
            rw [hf] at h
            simp only at h
            cases hg : eth.estimateGas toAddress wei with
            | error e =>
              rw [hg] at h
              simp at h
            | ok gasLimit =>
              rw [hg] at h
              simp only at h
              refine ⟨_, wei, gasLimit, feeData, hp, rfl, hg, ?_⟩
              cases hw : eth.walletSendTransaction (buildTx toAddress wei gasLimit feeData) with
              | error e =>
                rw [hw] at h
                simpa using h
              | ok hash =>
                rw [hw] at h
                simp only at h
                cases hr : eth.wait hash with
                | error e =>
                  rw [hr] at h
                  simpa using h
                | ok receipt =>
                  rw [hr] at h
                  simpa using h

/-! ## Claims -/

/-- For a window whose start SQLite represents at `now`: `getTimeUntilNextRequest`
resolves `null` exactly when `hasRecentRequest` is false, which is exactly when no record
of the address is newer than `now - hours`; otherwise `lastRequest` is the greatest
`created_at` among the address's records and, when SQLite represents `lastRequest` plus
the window, `nextAllowed` is that instant and `secondsRemaining` is
`max 0 (nextAllowed - now)`. -/
theorem getTimeUntilNextRequest_spec (db : Ledger) (a : String) (h now : Int)
    (h0 : 0 ≤ h) (hrep : Representable (now - h * 3600)) :
    (getTimeUntilNextRequest db a h now = none ↔ hasRecentRequest db a h now = false) ∧
    (hasRecentRequest db a h now = false ↔
      ¬ ∃ r ∈ db, r.address = a ∧ r.created_at > now - h * 3600) ∧
    (∀ t, getTimeUntilNextRequest db a h now = some t →
      (∃ r ∈ db, r.address = a ∧ r.created_at = t.lastRequest) ∧
      (∀ r ∈ db, r.address = a → r.created_at ≤ t.lastRequest) ∧
      (Representable (t.lastRequest + h * 3600) →
        t.nextAllowed = some (t.lastRequest + h * 3600) ∧
        (t.secondsRemaining : Int) = max 0 (t.lastRequest + h * 3600 - now))) := by
  have hw := windowStart_of_representable now h h0 hrep
  refine ⟨?_, ?_, ?_⟩
  · constructor
    · intro hn
      cases hrec : hasRecentRequest db a h now with
      | false => rfl
      | true =>
        obtain ⟨s, c, _, _, _, _, hc⟩ := getTimeUntilNextRequest_of_recent db a h now hrec
        rw [hc] at hn
        cases he : windowEnd c h with
        | none => simp [he] at hn
        | some next => simp [he] at hn
    · exact getTimeUntilNextRequest_of_not_recent db a h now
  · rw [hasRecentRequest_false_iff db a h now _ hw]
    constructor
    · rintro hall ⟨r, hr, hra, hgt⟩
      have := hall r hr hra
      omega
    · intro hn r hr hra
      by_contra hc
      exact hn ⟨r, hr, hra, by omega⟩
  · intro t ht
    cases hrec : hasRecentRequest db a h now with
    | false =>
      rw [getTimeUntilNextRequest_of_not_recent db a h now hrec] at ht
      simp at ht
    | true =>
      obtain ⟨s, c, _, hex, hmax, _, hc⟩ := getTimeUntilNextRequest_of_recent db a h now hrec
      rw [hc] at ht
      cases he : windowEnd c h with
      | none =>
        rw [he] at ht
        simp only [Option.some.injEq] at ht
        subst ht
        refine ⟨hex, hmax, ?_⟩
        intro hr2
        rw [windowEnd_of_representable c h h0 hr2] at he
        simp at he
      | some next =>
        rw [he] at ht
        simp only [Option.some.injEq] at ht
        subst ht
        refine ⟨hex, hmax, ?_⟩
        intro hr2
        rw [windowEnd_of_representable c h h0 hr2] at he
        simp only [Option.some.injEq] at he
        subst he
        refine ⟨rfl, ?_⟩
        simp only [Int.toNat_eq_max]
        rw [max_comm]

theorem getTimeUntilNextRequest_spec_witness :
    getTimeUntilNextRequest sampleLedger "0xA" 24 160 = some ⟨100, some 86500, 86340⟩ ∧
    ((86340 : Nat) : Int) = max 0 ((100 : Int) + 24 * 3600 - 160) :=
  ⟨by decide,
    (((getTimeUntilNextRequest_spec sampleLedger "0xA" 24 160 (by decide) (by decide)).2.2
      ⟨100, some 86500, 86340⟩ (by decide)).2.2 (by decide)).2⟩

/-- C8 at the failing input: with a window of 100000000 hours the start of the window,
`datetime('now', '-100000000 hours')`, is `NULL`, so `hasRecentRequest` resolves `false`
and `getTimeUntilNextRequest` resolves `null` although a record of the address, created a
minute ago, is newer than `now - hours`; with 24 hours the same queries find it. -/
theorem throttle_queries_null_window :
    windowStart sampleNow 100000000 = none ∧
    (∃ r ∈ recentLedger, r.address = "0xA" ∧ r.created_at > sampleNow - 100000000 * 3600) ∧
    hasRecentRequest recentLedger "0xA" 100000000 sampleNow = false ∧
    getTimeUntilNextRequest recentLedger "0xA" 100000000 sampleNow = none ∧
    hasRecentRequest recentLedger "0xA" 24 sampleNow = true ∧
    getTimeUntilNextRequest recentLedger "0xA" 24 sampleNow =
      some ⟨1793836740, some 1793923140, 86340⟩ := by
  decide

/-- C9: a request whose `address` or `captchaToken` is absent or empty is answered with
the 400 missing-fields response; the ledger is unchanged and no collaborator is called,
whatever the other field, the ledger and the collaborators are. -/
theorem requestDisbursement_missingField (env : Env) (db : Ledger) (req : Request)
    (clock : Clock)
    (h : req.address = none ∨ req.address = some "" ∨
      req.captchaToken = none ∨ req.captchaToken = some "") :
    (requestDisbursement env db req clock).kind = Kind.missingField ∧
    (requestDisbursement env db req clock).response =
      Response.failure 400 "Missing required fields: address and captchaToken are required" ∧
    (requestDisbursement env db req clock).response.status = 400 ∧
    (requestDisbursement env db req clock).response.success = false ∧
    (requestDisbursement env db req clock).db = db ∧
    (requestDisbursement env db req clock).calls = [] := by
  have hf : (!truthyStr req.address || !truthyStr req.captchaToken) = true := by
    rcases h with h | h | h | h <;> simp [h, truthyStr]
  unfold requestDisbursement
  rw [if_pos hf]
  exact ⟨rfl, rfl, rfl, rfl, rfl, rfl⟩

/-- Witness for C9: the token is omitted. -/
theorem requestDisbursement_missingField_witness :
    (requestDisbursement sampleEnv sampleLedger ⟨some "0xA", none, none⟩ ⟨0, 0, 0⟩).kind =
      Kind.missingField ∧
    (requestDisbursement sampleEnv sampleLedger ⟨some "0xA", none, none⟩ ⟨0, 0, 0⟩).db =
      sampleLedger :=
  ⟨(requestDisbursement_missingField sampleEnv sampleLedger ⟨some "0xA", none, none⟩
      ⟨0, 0, 0⟩ (Or.inr (Or.inr (Or.inl rfl)))).1,
    (requestDisbursement_missingField sampleEnv sampleLedger ⟨some "0xA", none, none⟩
      ⟨0, 0, 0⟩ (Or.inr (Or.inr (Or.inl rfl)))).2.2.2.2.1⟩

/-- C10: `isValidAddress` returns a boolean for every input, `false` when the library
throws or rejects; and a request with both fields present whose address it rejects is
answered with the 400 invalid-address response, the ledger unchanged, and the only call
made is the address check (neither the ledger nor the verification service is reached). -/
theorem requestDisbursement_invalidAddress (env : Env) (db : Ledger) (req : Request)
    (clock : Clock) (a tok : String)
    (ha : req.address = some a) (ha0 : a ≠ "")
    (ht : req.captchaToken = some tok) (ht0 : tok ≠ "")
    (hinv : isValidAddress env.chain a = false) :
    (∀ (eth : Chain) (x : String),
      (∀ e, eth.isAddress x = .error e → isValidAddress eth x = false) ∧
      (∀ b, eth.isAddress x = .ok b → isValidAddress eth x = b)) ∧
    (requestDisbursement env db req clock).kind = Kind.invalidAddress ∧
    (requestDisbursement env db req clock).response =
      Response.failure 400 "Invalid Ethereum address format" ∧
    (requestDisbursement env db req clock).response.status = 400 ∧
    (requestDisbursement env db req clock).db = db ∧
    (requestDisbursement env db req clock).calls = [Call.isAddress a] ∧
    (∀ c ∈ (requestDisbursement env db req clock).calls, c.isLedgerOrVerifier = false) := by
  have hf : (!truthyStr req.address || !truthyStr req.captchaToken) = false := by
    simp [ha, ht, truthyStr, ha0, ht0]
  have key : requestDisbursement env db req clock =
      ⟨Kind.invalidAddress, Response.failure 400 "Invalid Ethereum address format", db,
        [Call.isAddress a]⟩ := by
    unfold requestDisbursement
    rw [hf, ha, ht]
    simp [hinv]
  refine ⟨?_, ?_⟩
  · intro eth x
    constructor
    · intro e he
      simp [isValidAddress, he]
    · intro b hb
      simp [isValidAddress, hb]
  · rw [key]
    refine ⟨rfl, rfl, rfl, rfl, rfl, ?_⟩
    intro c hc
    simp only [List.mem_singleton] at hc
    subst hc
    rfl

/-- Witness for C10: the address `invalid-address` with a token. -/
theorem requestDisbursement_invalidAddress_witness :
    (requestDisbursement sampleEnv sampleLedger
      ⟨some "invalid-address", some "invalid-token", none⟩ ⟨0, 0, 0⟩).kind =
        Kind.invalidAddress :=
  (requestDisbursement_invalidAddress sampleEnv sampleLedger
    ⟨some "invalid-address", some "invalid-token", none⟩ ⟨0, 0, 0⟩
    "invalid-address" "invalid-token" rfl (by decide) rfl (by decide) (by decide)).2.1

/-- C1: when the handler answers `MissingField`, `InvalidAddress`, `RateLimited` or
`VerificationFailed`, the ledger afterwards is the ledger before: its count is the same,
every throttling query answers as before, and no write to the ledger was issued. -/
theorem rejected_request_leaves_ledger (env : Env) (db : Ledger) (req : Request)
    (clock : Clock)
    (h : (requestDisbursement env db req clock).kind = Kind.missingField ∨
      (requestDisbursement env db req clock).kind = Kind.invalidAddress ∨
      (requestDisbursement env db req clock).kind = Kind.rateLimited ∨
      (requestDisbursement env db req clock).kind = Kind.verificationFailed) :
    (requestDisbursement env db req clock).db = db ∧
    (requestDisbursement env db req clock).db.length = db.length ∧
    (∀ a hours now, hasRecentRequest (requestDisbursement env db req clock).db a hours now =
      hasRecentRequest db a hours now) ∧
    (∀ c ∈ (requestDisbursement env db req clock).calls, c.isWrite = false) := by
  have key : (requestDisbursement env db req clock).db = db ∧
      (∀ c ∈ (requestDisbursement env db req clock).calls, c.isWrite = false) := by
    rcases WellFormed.or_missing req with hm | ⟨a, tok, hw⟩
    · rw [requestDisbursement_missing env db req clock hm]
      simp
    · rw [requestDisbursement_wellFormed env db req clock a tok hw] at h ⊢
      cases hv : isValidAddress env.chain a with
      | false => simp [hv, Call.isWrite]
      | true =>
        cases hr : hasRecentRequest db a (rateLimitHours env.config) clock.check with
        | true =>
          cases hg : getTimeUntilNextRequest db a (rateLimitHours env.config) clock.info with
          | none => simp [hv, hr, hg, Call.isWrite]
          | some t => simp [hv, hr, hg, Call.isWrite]
        | false =>
          simp only [hv, hr, Bool.not_true, Bool.false_eq_true, if_false] at h ⊢
          rcases disburse_kind env db a tok req.clientIp clock
            [Call.isAddress a, Call.hasRecentRequest a (rateLimitHours env.config)] with
            hk | hk | hk
          · obtain ⟨_, hdb, msg, _, _, hcalls⟩ := hk
            refine ⟨hdb, ?_⟩
            rw [hcalls]
            intro c hc
            simp only [List.cons_append, List.nil_append, List.mem_cons, List.mem_singleton,
              List.not_mem_nil, or_false] at hc
            rcases hc with hc | hc | hc <;> subst hc <;> rfl
          · rw [hk.1] at h; simp at h
          · rw [hk.1] at h; simp at h
  refine ⟨key.1, ?_, ?_, key.2⟩
  · rw [key.1]
  · intro a hours now
    rw [key.1]

/-- Witness for C1: a verification failure on a non-empty ledger. -/
theorem rejected_request_leaves_ledger_witness :
    (requestDisbursement strictEnv sampleLedger ⟨some "0xA", some "tok", none⟩
      ⟨90000, 90000, 90000⟩).kind = Kind.verificationFailed ∧
    (requestDisbursement strictEnv sampleLedger ⟨some "0xA", some "tok", none⟩
      ⟨90000, 90000, 90000⟩).db = sampleLedger :=
  ⟨by decide,
    (rejected_request_leaves_ledger strictEnv sampleLedger ⟨some "0xA", some "tok", none⟩
      ⟨90000, 90000, 90000⟩ (Or.inr (Or.inr (Or.inr (by decide))))).1⟩

/-- C7 as stated fails: with 59 seconds remaining the handler sends `59s`, not
`0h 0m 59s`. -/
theorem timeString_not_hms :
    (requestDisbursement sampleEnv sampleLedger sampleRequest ⟨86441, 86441, 86441⟩).kind =
      Kind.rateLimited ∧
    (requestDisbursement sampleEnv sampleLedger sampleRequest
      ⟨86441, 86441, 86441⟩).response.timeRemaining = some 59 ∧
    (requestDisbursement sampleEnv sampleLedger sampleRequest
      ⟨86441, 86441, 86441⟩).response.timeString = some "59s" ∧
    (requestDisbursement sampleEnv sampleLedger sampleRequest
      ⟨86441, 86441, 86441⟩).response.timeString ≠ some (hmsFormat 59) := by
  decide

/-- C7 amended: in every rate-limited response `timeRemaining` is the `secondsRemaining`
`s` of `getTimeUntilNextRequest`, and with `X = s / 3600`, `Y = (s % 3600) / 60`,
`Z = s % 60` (so `X * 3600 + Y * 60 + Z = s`, `Y < 60`, `Z < 60`) `timeString` is
`"Xh Ym Zs"` when `X > 0`, `"Ym Zs"` when `X = 0 < Y`, and `"Zs"` when `X = 0 = Y`. -/
theorem rateLimited_timeString (env : Env) (db : Ledger) (req : Request) (clock : Clock)
    (h : (requestDisbursement env db req clock).kind = Kind.rateLimited) :
    ∃ a t s, req.address = some a ∧
      getTimeUntilNextRequest db a (rateLimitHours env.config) clock.info = some t ∧
      t.secondsRemaining = s ∧
      (requestDisbursement env db req clock).response.status = 429 ∧
      (requestDisbursement env db req clock).response.success = false ∧
      (requestDisbursement env db req clock).response.timeRemaining = some s ∧
      (requestDisbursement env db req clock).response.nextAllowed = t.nextAllowed ∧
      (0 < s / 3600 →
        (requestDisbursement env db req clock).response.timeString = some (hmsFormat s)) ∧
      (s / 3600 = 0 → 0 < (s % 3600) / 60 →
        (requestDisbursement env db req clock).response.timeString =
          some (toString ((s % 3600) / 60) ++ "m " ++ toString (s % 60) ++ "s")) ∧
      (s / 3600 = 0 → (s % 3600) / 60 = 0 →
        (requestDisbursement env db req clock).response.timeString =
          some (toString (s % 60) ++ "s")) ∧
      s / 3600 * 3600 + (s % 3600) / 60 * 60 + s % 60 = s ∧
      (s % 3600) / 60 < 60 ∧ s % 60 < 60 := by
  obtain ⟨a, tok, t, hw, _, _, hg, heq⟩ := rateLimited_inv env db req clock h
  refine ⟨a, t, t.secondsRemaining, hw.1, hg, rfl, ?_⟩
  rw [heq]
  refine ⟨rfl, rfl, rfl, rfl, ?_, ?_, ?_, ?_, ?_, ?_⟩
  · intro hx
    simp [rateLimitedResponse, timeString, hmsFormat, hx]
  · intro hx hy
    simp [rateLimitedResponse, timeString, hx, hy]
  · intro hx hy
    simp [rateLimitedResponse, timeString, hx, hy]
  · omega
  · omega
  · omega

/-- Witness for the amended C7: 86340 seconds remaining read `23h 59m 0s`. -/
theorem rateLimited_timeString_witness :
    (requestDisbursement sampleEnv sampleLedger sampleRequest ⟨160, 160, 160⟩).kind =
      Kind.rateLimited ∧
    (requestDisbursement sampleEnv sampleLedger sampleRequest
      ⟨160, 160, 160⟩).response.timeString = some "23h 59m 0s" ∧
    ∃ a t s, sampleRequest.address = some a ∧
      getTimeUntilNextRequest sampleLedger a (rateLimitHours sampleEnv.config) 160 = some t ∧
      t.secondsRemaining = s ∧
      (requestDisbursement sampleEnv sampleLedger sampleRequest
        ⟨160, 160, 160⟩).response.timeRemaining = some s :=
  ⟨by decide, by decide,
    match rateLimited_timeString sampleEnv sampleLedger sampleRequest ⟨160, 160, 160⟩
      (by decide) with
    | ⟨a, t, s, h1, h2, h3, _, _, h6, _⟩ => ⟨a, t, s, h1, h2, h3, h6⟩⟩

/-- C4 at the failing input: on a ledger where two records of `0xA` share the latest
`created_at`, `updateRequestWithTx` and `updateRequestWithError` rewrite both records, not
one, and report two rows. -/
theorem update_changes_tied_records :
    (updateRequestWithTx tiedLedger "0xA" "0xh").1 =
      [⟨1, "0xA", some "0xh", "0.001", "completed", none, 100⟩,
       ⟨2, "0xA", some "0xh", "0.001", "completed", none, 100⟩] ∧
    changedRows tiedLedger (updateRequestWithTx tiedLedger "0xA" "0xh").1 = 2 ∧
    (updateRequestWithTx tiedLedger "0xA" "0xh").2 = 2 ∧
    (updateRequestWithError tiedLedger "0xA" "boom").1 =
      [⟨1, "0xA", none, "0.001", "failed", some "boom", 100⟩,
       ⟨2, "0xA", none, "0.001", "failed", some "boom", 100⟩] ∧
    changedRows tiedLedger (updateRequestWithError tiedLedger "0xA" "boom").1 = 2 ∧
    (updateRequestWithError tiedLedger "0xA" "boom").2 = 2 := by
  decide

/-- What the two `UPDATE` statements do on every ledger: they keep its length and rewrite
exactly the records of the address whose `created_at` is the greatest among the address's
records (all of them when several share it); such a record gets `status = 'completed'` and
the `tx_hash`, respectively `status = 'failed'` and the `error_message`, its other columns
unchanged; every record of another address and every older record of the address is left
unchanged.  The reported count is the number of those records: zero, with the ledger
unchanged, when the address has no record, and one when the address has a record and no
two of its records share a `created_at`. -/
theorem update_latest_records (db : Ledger) (a arg : String) :
    ((updateRequestWithTx db a arg).1.length = db.length ∧
      (∀ p ∈ db.zip (updateRequestWithTx db a arg).1,
        (IsLatestOf db a p.1 → p.2 =
          ⟨p.1.id, p.1.address, some arg, p.1.amount, "completed", p.1.error_message,
            p.1.created_at⟩) ∧
        (¬ IsLatestOf db a p.1 → p.2 = p.1) ∧
        (p.1.address ≠ a → p.2 = p.1)) ∧
      ((∀ r ∈ db, r.address ≠ a) →
        (updateRequestWithTx db a arg).1 = db ∧ (updateRequestWithTx db a arg).2 = 0) ∧
      ((∃ r ∈ db, r.address = a) →
        ((db.filter (fun r => decide (r.address = a))).map Row.created_at).Nodup →
        (updateRequestWithTx db a arg).2 = 1) ∧
      (updateRequestWithTx db a arg).2 =
        (db.filter (fun r => decide (r.address = a ∧
          ∀ x ∈ db, x.address = a → x.created_at ≤ r.created_at))).length) ∧
    ((updateRequestWithError db a arg).1.length = db.length ∧
      (∀ p ∈ db.zip (updateRequestWithError db a arg).1,
        (IsLatestOf db a p.1 → p.2 =
          ⟨p.1.id, p.1.address, p.1.tx_hash, p.1.amount, "failed", some arg,
            p.1.created_at⟩) ∧
        (¬ IsLatestOf db a p.1 → p.2 = p.1) ∧
        (p.1.address ≠ a → p.2 = p.1)) ∧
      ((∀ r ∈ db, r.address ≠ a) →
        (updateRequestWithError db a arg).1 = db ∧
        (updateRequestWithError db a arg).2 = 0) ∧
      ((∃ r ∈ db, r.address = a) →
        ((db.filter (fun r => decide (r.address = a))).map Row.created_at).Nodup →
        (updateRequestWithError db a arg).2 = 1) ∧
      (updateRequestWithError db a arg).2 =
        (db.filter (fun r => decide (r.address = a ∧
          ∀ x ∈ db, x.address = a → x.created_at ≤ r.created_at))).length) :=
  ⟨update_frame db a
      (fun r => ⟨r.id, r.address, some arg, r.amount, "completed", r.error_message,
        r.created_at⟩),
    update_frame db a
      (fun r => ⟨r.id, r.address, r.tx_hash, r.amount, "failed", some arg, r.created_at⟩)⟩

theorem update_latest_records_witness :
    ((updateRequestWithTx sampleLedger "0xB" "0xh").1 = sampleLedger ∧
      (updateRequestWithTx sampleLedger "0xB" "0xh").2 = 0) ∧
    (updateRequestWithError sampleLedger "0xA" "boom").2 = 1 :=
  ⟨(update_latest_records sampleLedger "0xB" "0xh").1.2.2.1 (by decide),
    (update_latest_records sampleLedger "0xA" "boom").2.2.2.2.1 (by decide) (by decide)⟩

/-- C6: an accepted request (fields present, address valid, throttle check and verification
passed) whose `sendTransaction` throws an error with message `msg` is answered 500 with
`error = msg`, and afterwards the latest record of the address exists, has
`status = 'failed'` and `error_message = msg`; when the error caught inside
`sendTransaction` carries the code `INSUFFICIENT_FUNDS`, `msg` is
`Insufficient funds in faucet wallet`. -/
theorem submissionFailed_recorded (env : Env) (db : Ledger) (req : Request) (clock : Clock)
    (a tok msg : String) (hw : WellFormed req a tok)
    (hv : isValidAddress env.chain a = true)
    (hrec : hasRecentRequest db a (rateLimitHours env.config) clock.check = false)
    (hver : env.verifyToken tok req.clientIp = .ok ())
    (hsend : (sendTransaction env.chain a (.value (faucetAmount env.config))).1 = .error msg) :
    (requestDisbursement env db req clock).kind = Kind.submissionFailed ∧
    (requestDisbursement env db req clock).response = Response.failure 500 msg ∧
    (requestDisbursement env db req clock).response.error = some msg ∧
    (∃ r ∈ (requestDisbursement env db req clock).db,
      IsLatestOf (requestDisbursement env db req clock).db a r) ∧
    (∀ r ∈ (requestDisbursement env db req clock).db,
      IsLatestOf (requestDisbursement env db req clock).db a r →
        r.status = "failed" ∧ r.error_message = some msg) ∧
    (∀ e, (trySendTransaction env.chain a (.value (faucetAmount env.config))).1 = .error e →
      msg = classifyError e ∧
      (e.code = some "INSUFFICIENT_FUNDS" → msg = "Insufficient funds in faucet wallet")) := by
  have hlast : ∀ e,
      (trySendTransaction env.chain a (.value (faucetAmount env.config))).1 = .error e →
      msg = classifyError e ∧
      (e.code = some "INSUFFICIENT_FUNDS" → msg = "Insufficient funds in faucet wallet") := by
    intro e he
    have h1 := sendTransaction_fst env.chain a (.value (faucetAmount env.config))
    rw [he, hsend] at h1
    simp only [Except.error.injEq] at h1
    refine ⟨h1, ?_⟩
    intro hc
    rw [h1]
    simp [classifyError, hc]
  rw [requestDisbursement_wellFormed env db req clock a tok hw]
  simp only [hv, hrec, Bool.not_true, Bool.false_eq_true, if_false]
  rcases disburse_kind env db a tok req.clientIp clock
    [Call.isAddress a, Call.hasRecentRequest a (rateLimitHours env.config)] with h | h | h
  · obtain ⟨_, _, m, hm, _⟩ := h
    rw [hver] at hm
    simp at hm
  · obtain ⟨_, r, sent, hs, _⟩ := h
    rw [hs] at hsend
    simp at hsend
  · obtain ⟨h1, m, sent, hs, _, h4, h5⟩ := h
    rw [hs] at hsend
    simp only [Except.error.injEq] at hsend
    subst hsend
    have hrows := update_latest_rows
      (recordRequest db a (env.chain.numberToString (faucetAmount env.config)) none
        "pending" none clock.insert) a
      (fun x => ⟨x.id, x.address, x.tx_hash, x.amount, "failed", some m, x.created_at⟩)
      (fun _ => ⟨rfl, rfl⟩)
      ⟨_, List.mem_append_right _ (List.mem_singleton_self _), rfl⟩
    refine ⟨h1, h4, by rw [h4]; rfl, ?_, ?_, hlast⟩
    · rw [h5]
      exact hrows.1
    · rw [h5]
      intro r hr hl
      obtain ⟨x, _, _, hrx⟩ := hrows.2 r hr hl
      rw [hrx]
      exact ⟨rfl, rfl⟩

/-- Witness for C6: the gas estimation reports insufficient funds. -/
theorem submissionFailed_recorded_witness :
    (requestDisbursement poorEnv [] sampleRequest ⟨100, 100, 100⟩).response =
      Response.failure 500 "Insufficient funds in faucet wallet" ∧
    (requestDisbursement poorEnv [] sampleRequest ⟨100, 100, 100⟩).db =
      [⟨1, "0xA", none, "0.001", "failed", some "Insufficient funds in faucet wallet",
        100⟩] :=
  ⟨(submissionFailed_recorded poorEnv [] sampleRequest ⟨100, 100, 100⟩ "0xA" "tok"
      "Insufficient funds in faucet wallet" ⟨rfl, by decide, rfl, by decide⟩ (by decide)
      (by decide) rfl rfl).2.1,
    by decide⟩

/-- Where SQLite represents the start of the window: if a request for `a` ends as
`SubmissionFailed` (its record exists with `status = 'failed'` and `created_at` the
insertion instant), then on every later ledger that still holds the records of that
ledger's addresses and instants, a request for `a` with both fields present, made while
that `created_at` is newer than `now - hours` at both throttling queries, is answered
`RateLimited` and leaves the ledger unchanged; `hasRecentRequest` is true exactly when some
record of the address lies in the window, whatever its status. -/
theorem failed_submission_blocks (env1 env2 : Env) (db db2 : Ledger) (req1 req2 : Request)
    (clock1 clock2 : Clock) (a tok2 : String)
    (hk : (requestDisbursement env1 db req1 clock1).kind = Kind.submissionFailed)
    (ha1 : req1.address = some a) (ho1 : Orderly env1 clock1)
    (hkeep : ∀ r ∈ (requestDisbursement env1 db req1 clock1).db,
      ∃ x ∈ db2, x.address = r.address ∧ x.created_at = r.created_at)
    (hw2 : WellFormed req2 a tok2) (hv2 : isValidAddress env2.chain a = true)
    (h0 : 0 ≤ rateLimitHours env2.config)
    (hrep1 : Representable (clock2.check - rateLimitHours env2.config * 3600))
    (hrep2 : Representable (clock2.info - rateLimitHours env2.config * 3600))
    (hcheck : clock1.insert > clock2.check - rateLimitHours env2.config * 3600)
    (hinfo : clock1.insert > clock2.info - rateLimitHours env2.config * 3600) :
    (∃ r ∈ (requestDisbursement env1 db req1 clock1).db,
      r.address = a ∧ r.status = "failed" ∧ r.created_at = clock1.insert) ∧
    (requestDisbursement env2 db2 req2 clock2).kind = Kind.rateLimited ∧
    (requestDisbursement env2 db2 req2 clock2).response.status = 429 ∧
    (requestDisbursement env2 db2 req2 clock2).db = db2 ∧
    (∀ (l : Ledger) (x : String) (h now start : Int), windowStart now h = some start →
      (hasRecentRequest l x h now = true ↔
        ∃ r ∈ l, r.address = x ∧ r.created_at > start)) := by
  have hrow : ∃ r ∈ (requestDisbursement env1 db req1 clock1).db,
      r.address = a ∧ r.status = "failed" ∧ r.created_at = clock1.insert := by
    rcases requestDisbursement_step env1 db req1 clock1 ho1 with
      h | ⟨a', amount, p, ha', _, hp, _, h⟩
    · exact absurd hk h.2.2
    · have haa : a' = a := by
        rw [ha1] at ha'
        exact (Option.some.inj ha').symm
      subst haa
      rcases h with ⟨tx, h1, _, _⟩ | ⟨msg, _, _, _, h3⟩
      · rw [h1] at hk
        simp at hk
      · rw [h3, hp]
        exact ⟨_, List.mem_append_right _ (List.mem_singleton_self _), rfl, rfl, rfl⟩
  obtain ⟨r, hr, hra, _, hrc⟩ := hrow
  obtain ⟨x, hx, hxa, hxc⟩ := hkeep r hr
  have hxa2 : x.address = a := by rw [hxa, hra]
  obtain ⟨c, t, _, _, _, _, _, heq⟩ := requestDisbursement_rateLimited env2 db2 req2 clock2
    a tok2 hw2 hv2 x hx hxa2 h0 hrep1 hrep2 (by rw [hxc, hrc]; exact hcheck)
    (by rw [hxc, hrc]; exact hinfo)
  refine ⟨⟨r, hr, hra, by assumption, hrc⟩, ?_, ?_, ?_, ?_⟩
  · rw [heq]
  · rw [heq]
    rfl
  · rw [heq]
  · intro l x h now start hs
    rw [hasRecentRequest_iff]
    constructor
    · rintro ⟨s, hs2, hr⟩
      rw [hs] at hs2
      simp only [Option.some.injEq] at hs2
      subst hs2
      exact hr
    · intro hr
      exact ⟨start, hs, hr⟩

theorem failed_submission_blocks_witness :
    (requestDisbursement poorEnv [] sampleRequest ⟨100, 100, 100⟩).kind =
      Kind.submissionFailed ∧
    (requestDisbursement sampleEnv
      (requestDisbursement poorEnv [] sampleRequest ⟨100, 100, 100⟩).db sampleRequest
      ⟨160, 160, 160⟩).kind = Kind.rateLimited :=
  ⟨by decide,
    (failed_submission_blocks poorEnv sampleEnv []
      (requestDisbursement poorEnv [] sampleRequest ⟨100, 100, 100⟩).db
      sampleRequest sampleRequest ⟨100, 100, 100⟩ ⟨160, 160, 160⟩ "0xA" "tok"
      (by decide) rfl (by decide) (fun r hr => ⟨r, hr, rfl, rfl⟩)
      ⟨rfl, by decide, rfl, by decide⟩ (by decide) (by decide) (by decide) (by decide)
      (by decide) (by decide)).2.1⟩

/-- C2 at the failing input: with `RATE_LIMIT_HOURS=100000000` the start of the window is
`NULL`, so a submission that failed a minute ago, whose record is newer than
`now - hours`, does not block the next request for the address: it is served. -/
theorem failed_submission_not_blocking :
    rateLimitHours poorHugeWindowEnv.config = 100000000 ∧
    (requestDisbursement poorHugeWindowEnv [] sampleRequest
      ⟨1793836740, 1793836740, 1793836740⟩).kind = Kind.submissionFailed ∧
    (requestDisbursement poorHugeWindowEnv [] sampleRequest
      ⟨1793836740, 1793836740, 1793836740⟩).db =
      [⟨1, "0xA", none, "0.001", "failed", some "Insufficient funds in faucet wallet",
        1793836740⟩] ∧
    (1793836740 : Int) > 1793836800 - 100000000 * 3600 ∧
    windowStart 1793836800 100000000 = none ∧
    (requestDisbursement hugeWindowEnv
      (requestDisbursement poorHugeWindowEnv [] sampleRequest
        ⟨1793836740, 1793836740, 1793836740⟩).db
      sampleRequest ⟨1793836800, 1793836800, 1793836800⟩).kind = Kind.success ∧
    (requestDisbursement hugeWindowEnv
      (requestDisbursement poorHugeWindowEnv [] sampleRequest
        ⟨1793836740, 1793836740, 1793836740⟩).db
      sampleRequest ⟨1793836800, 1793836800, 1793836800⟩).kind ≠ Kind.rateLimited := by
  decide

/-- C3 as stated fails: the store's clock counts whole seconds, so two requests at the
instants 160.000 s and 160.500 s, one strictly later than the other and both inside the
window of a disbursement at second 100, are told the same 86340 remaining seconds. -/
theorem secondsRemaining_same_second :
    (160000 : Int) < 160500 ∧
    (requestDisbursement sampleEnv
      (requestDisbursement sampleEnv [] sampleRequest ⟨100, 100, 100⟩).db sampleRequest
      ⟨clockReading 160000, clockReading 160000, clockReading 160000⟩).kind =
        Kind.rateLimited ∧
    (requestDisbursement sampleEnv
      (requestDisbursement sampleEnv [] sampleRequest ⟨100, 100, 100⟩).db sampleRequest
      ⟨clockReading 160000, clockReading 160000,
        clockReading 160000⟩).response.timeRemaining = some 86340 ∧
    (requestDisbursement sampleEnv
      (requestDisbursement sampleEnv [] sampleRequest ⟨100, 100, 100⟩).db sampleRequest
      ⟨clockReading 160500, clockReading 160500, clockReading 160500⟩).kind =
        Kind.rateLimited ∧
    (requestDisbursement sampleEnv
      (requestDisbursement sampleEnv [] sampleRequest ⟨100, 100, 100⟩).db sampleRequest
      ⟨clockReading 160500, clockReading 160500,
        clockReading 160500⟩).response.timeRemaining = some 86340 := by
  decide

/-- C3 amended: after a successful disbursement to `a` whose throttle check ordered the
records, a later request for `a` on the same ledger, made while the new record is inside
the window and with the start and the end of the window instants SQLite represents, is
answered `RateLimited` with `timeRemaining = s`, where `s` is the insertion instant plus
the window minus the second of the query and `s <= hours * 3600`; and a further such
request at a strictly later instant inside the window reports no more seconds, and
strictly fewer when the two instants fall in different seconds of the store's clock. -/
theorem success_then_rateLimited (env1 env2 env3 : Env) (db : Ledger)
    (req1 req2 req3 : Request) (clock1 clock2 clock3 : Clock) (a tok2 tok3 : String)
    (ms2 ms3 : Int)
    (hk : (requestDisbursement env1 db req1 clock1).kind = Kind.success)
    (ha1 : req1.address = some a) (ho1 : Orderly env1 clock1)
    (hw2 : WellFormed req2 a tok2) (hv2 : isValidAddress env2.chain a = true)
    (hw3 : WellFormed req3 a tok3) (hv3 : isValidAddress env3.chain a = true)
    (hsame : rateLimitHours env3.config = rateLimitHours env2.config)
    (h0 : 0 ≤ rateLimitHours env2.config)
    (hread2 : clock2.info = clockReading ms2) (hread3 : clock3.info = clockReading ms3)
    (hlater : ms2 < ms3) (hafter : clock1.insert ≤ clock2.info)
    (hrepc2 : Representable (clock2.check - rateLimitHours env2.config * 3600))
    (hrepi2 : Representable (clock2.info - rateLimitHours env2.config * 3600))
    (hrepc3 : Representable (clock3.check - rateLimitHours env2.config * 3600))
    (hrepi3 : Representable (clock3.info - rateLimitHours env2.config * 3600))
    (hend : Representable (clock1.insert + rateLimitHours env2.config * 3600))
    (hcheck2 : clock1.insert > clock2.check - rateLimitHours env2.config * 3600)
    (hinfo2 : clock1.insert > clock2.info - rateLimitHours env2.config * 3600)
    (hcheck3 : clock1.insert > clock3.check - rateLimitHours env2.config * 3600)
    (hinfo3 : clock1.insert > clock3.info - rateLimitHours env2.config * 3600) :
    ∃ s2 s3 : Nat,
      (requestDisbursement env2 (requestDisbursement env1 db req1 clock1).db req2
        clock2).kind = Kind.rateLimited ∧
      (requestDisbursement env2 (requestDisbursement env1 db req1 clock1).db req2
        clock2).response.timeRemaining = some s2 ∧
      (s2 : Int) = clock1.insert + rateLimitHours env2.config * 3600 - clock2.info ∧
      (s2 : Int) ≤ rateLimitHours env2.config * 3600 ∧
      (requestDisbursement env3 (requestDisbursement env1 db req1 clock1).db req3
        clock3).kind = Kind.rateLimited ∧
      (requestDisbursement env3 (requestDisbursement env1 db req1 clock1).db req3
        clock3).response.timeRemaining = some s3 ∧
      s3 ≤ s2 ∧
      (clock2.info < clock3.info → s3 < s2) := by
  have hmonoRead : clock2.info ≤ clock3.info := by
    rw [hread2, hread3]
    unfold clockReading
    omega
  rcases requestDisbursement_step env1 db req1 clock1 ho1 with
    h | ⟨a', amount, p, ha', hold, hp, _, h⟩
  · exact absurd hk h.2.1
  · have haa : a' = a := by
      rw [ha1] at ha'
      exact (Option.some.inj ha').symm
    subst haa
    rcases h with ⟨tx, _, _, hdb⟩ | ⟨msg, h1, _, _, _⟩
    · have hmem : (⟨p.id, p.address, some tx, p.amount, "completed", p.error_message,
          p.created_at⟩ : Row) ∈ (requestDisbursement env1 db req1 clock1).db := by
        rw [hdb]
        exact List.mem_append_right _ (List.mem_singleton_self _)
      have hlatest : ∀ c : Int,
          (∃ x ∈ (requestDisbursement env1 db req1 clock1).db,
            x.address = a' ∧ x.created_at = c) →
          (∀ x ∈ (requestDisbursement env1 db req1 clock1).db,
            x.address = a' → x.created_at ≤ c) → c = clock1.insert := by
        rintro c ⟨x, hx, hxa, hxc⟩ hmax
        have h1 := hmax _ hmem (by rw [hp])
        rw [hp] at h1
        simp only at h1
        rw [hdb] at hx
        rcases List.mem_append.1 hx with hx | hx
        · have := hold x hx hxa
          omega
        · simp only [List.mem_singleton] at hx
          rw [← hxc, hx, hp]
      obtain ⟨c2, t2, hex2, hmax2, _, hform2, _, heq2⟩ :=
        requestDisbursement_rateLimited env2 _ req2 clock2 a' tok2 hw2 hv2 _ hmem
          (by rw [hp]) h0 hrepc2 hrepi2 (by rw [hp]; exact hcheck2)
          (by rw [hp]; exact hinfo2)
      obtain ⟨c3, t3, hex3, hmax3, _, hform3, _, heq3⟩ :=
        requestDisbursement_rateLimited env3 _ req3 clock3 a' tok3 hw3 hv3 _ hmem
          (by rw [hp]) (by rw [hsame]; exact h0) (by rw [hsame]; exact hrepc3)
          (by rw [hsame]; exact hrepi3) (by rw [hp, hsame]; exact hcheck3)
          (by rw [hp, hsame]; exact hinfo3)
      have hc2 := hlatest c2 hex2 hmax2
      have hc3 := hlatest c3 hex3 hmax3
      rw [hc2] at hform2
      rw [hc3, hsame] at hform3
      have ht2 := hform2 hend
      have ht3 := hform3 hend
      rw [ht2] at heq2
      rw [ht3] at heq3
      refine ⟨Int.toNat (clock1.insert + rateLimitHours env2.config * 3600 - clock2.info),
        Int.toNat (clock1.insert + rateLimitHours env2.config * 3600 - clock3.info),
        by rw [heq2], by rw [heq2]; rfl, ?_, ?_, by rw [heq3], by rw [heq3]; rfl, ?_, ?_⟩
      · rw [Int.toNat_of_nonneg (by omega)]
      · rw [Int.toNat_of_nonneg (by omega)]
        omega
      · omega
      · intro hlt
        omega
    · rw [h1] at hk
      simp at hk

/-- Witness for the amended C3: a disbursement at second 100, then requests at the
instants 160.000 s and 161.250 s. -/
theorem success_then_rateLimited_witness :
    ∃ s2 s3 : Nat,
      (requestDisbursement sampleEnv
        (requestDisbursement sampleEnv [] sampleRequest ⟨100, 100, 100⟩).db sampleRequest
        ⟨160, 160, 160⟩).kind = Kind.rateLimited ∧
      (requestDisbursement sampleEnv
        (requestDisbursement sampleEnv [] sampleRequest ⟨100, 100, 100⟩).db sampleRequest
        ⟨160, 160, 160⟩).response.timeRemaining = some s2 ∧
      (s2 : Int) ≤ 24 * 3600 ∧ s3 < s2 :=
  match success_then_rateLimited sampleEnv sampleEnv sampleEnv [] sampleRequest sampleRequest
      sampleRequest ⟨100, 100, 100⟩ ⟨160, 160, 160⟩ ⟨161, 161, 161⟩ "0xA" "tok" "tok"
      160000 161250
      (by decide) rfl (by decide) ⟨rfl, by decide, rfl, by decide⟩ (by decide)
      ⟨rfl, by decide, rfl, by decide⟩ (by decide) rfl (by decide) (by decide) (by decide)
      (by decide) (by decide) (by decide) (by decide) (by decide) (by decide) (by decide)
      (by decide) (by decide) (by decide) (by decide) with
  | ⟨s2, s3, h1, h2, _, h4, _, _, _, h8⟩ => ⟨s2, s3, h1, h2, h4, h8 (by decide)⟩

/-- Over every sequence of requests from the empty ledger in which each throttle check
orders the records (positive window whose start SQLite represents, clock not running
backwards between check and insertion), every record at rest is `completed` or `failed`;
every later such sequence keeps the ledger reached so far as a prefix; and one more such
request either leaves the ledger unchanged or appends exactly one record, inserted with
`status = 'pending'` and rewritten once by the following `UPDATE` to `completed` or to
`failed`. -/
theorem record_lifecycle (steps more : List (Env × Request × Clock))
    (hsteps : ∀ s ∈ steps, Orderly s.1 s.2.2) (hmore : ∀ s ∈ more, Orderly s.1 s.2.2)
    (env : Env) (req : Request) (clock : Clock) (ho : Orderly env clock) :
    (∀ r ∈ runRequests [] steps, Terminal r) ∧
    runRequests [] steps <+: runRequests [] (steps ++ more) ∧
    (∀ r ∈ runRequests [] (steps ++ more), Terminal r) ∧
    ((requestDisbursement env (runRequests [] steps) req clock).db = runRequests [] steps ∨
      ∃ a amount p,
        recordRequest (runRequests [] steps) a amount none "pending" none clock.insert =
          runRequests [] steps ++ [p] ∧
        p.status = "pending" ∧
        ((∃ tx, (requestDisbursement env (runRequests [] steps) req clock).db =
              (updateRequestWithTx (runRequests [] steps ++ [p]) a tx).1 ∧
            (requestDisbursement env (runRequests [] steps) req clock).db =
              runRequests [] steps ++
                [⟨p.id, p.address, some tx, p.amount, "completed", p.error_message,
                  p.created_at⟩]) ∨
          (∃ msg, (requestDisbursement env (runRequests [] steps) req clock).db =
              (updateRequestWithError (runRequests [] steps ++ [p]) a msg).1 ∧
            (requestDisbursement env (runRequests [] steps) req clock).db =
              runRequests [] steps ++
                [⟨p.id, p.address, p.tx_hash, p.amount, "failed", some msg,
                  p.created_at⟩]))) := by
  refine ⟨runRequests_terminal [] steps hsteps (by simp), ?_, ?_, ?_⟩
  · rw [runRequests_append]
    exact runRequests_prefix _ more hmore
  · apply runRequests_terminal [] (steps ++ more) _ (by simp)
    intro s hs
    rcases List.mem_append.1 hs with hs | hs
    · exact hsteps s hs
    · exact hmore s hs
  · rcases requestDisbursement_step env (runRequests [] steps) req clock ho with
      h | ⟨a, amount, p, _, _, hp, hrec, h⟩
    · exact Or.inl h.1
    · refine Or.inr ⟨a, amount, p, hrec, by rw [hp], ?_⟩
      rcases h with ⟨tx, _, h2, h3⟩ | ⟨msg, _, _, h2, h3⟩
      · exact Or.inl ⟨tx, h2, h3⟩
      · exact Or.inr ⟨msg, h2, h3⟩

theorem record_lifecycle_witness :
    runRequests [] [(sampleEnv, sampleRequest, ⟨100, 100, 100⟩)] <+:
      runRequests []
        ([(sampleEnv, sampleRequest, ⟨100, 100, 100⟩)] ++
          [(poorEnv, sampleRequest, ⟨90000, 90000, 90001⟩)]) ∧
    runRequests []
        ([(sampleEnv, sampleRequest, ⟨100, 100, 100⟩)] ++
          [(poorEnv, sampleRequest, ⟨90000, 90000, 90001⟩)]) =
      [⟨1, "0xA", some "0xh", "0.001", "completed", none, 100⟩,
       ⟨2, "0xA", none, "0.001", "failed", some "Insufficient funds in faucet wallet",
         90001⟩] :=
  ⟨(record_lifecycle [(sampleEnv, sampleRequest, ⟨100, 100, 100⟩)]
      [(poorEnv, sampleRequest, ⟨90000, 90000, 90001⟩)]
      (by decide) (by decide) sampleEnv sampleRequest ⟨0, 0, 0⟩ (by decide)).2.1,
    by decide⟩

/-- C5 at the failing inputs.  With `RATE_LIMIT_HOURS=-1` nothing is throttled: a request
whose submission fails and a request served in the same second leave the first record,
already `failed`, rewritten to `completed`.  With the default window and a clock that
steps back between the throttle check and the insertion, the `UPDATE` of the second
request rewrites the `completed` record of the first to `failed` and leaves its own
record `pending`. -/
theorem terminal_record_rewritten :
    runRequests [] [(poorNegativeWindowEnv, sampleRequest,
        ⟨1793836800, 1793836800, 1793836800⟩)] =
      [⟨1, "0xA", none, "0.001", "failed", some "Insufficient funds in faucet wallet",
        1793836800⟩] ∧
    runRequests [] [(poorNegativeWindowEnv, sampleRequest,
        ⟨1793836800, 1793836800, 1793836800⟩),
      (negativeWindowEnv, sampleRequest, ⟨1793836800, 1793836800, 1793836800⟩)] =
      [⟨1, "0xA", some "0xh", "0.001", "completed",
        some "Insufficient funds in faucet wallet", 1793836800⟩,
       ⟨2, "0xA", some "0xh", "0.001", "completed", none, 1793836800⟩] ∧
    runRequests [] [(sampleEnv, sampleRequest, ⟨1793836800, 1793836800, 1793836800⟩)] =
      [⟨1, "0xA", some "0xh", "0.001", "completed", none, 1793836800⟩] ∧
    runRequests [] [(sampleEnv, sampleRequest, ⟨1793836800, 1793836800, 1793836800⟩),
      (poorEnv, sampleRequest, ⟨1793926800, 1793926800, 1793836790⟩)] =
      [⟨1, "0xA", some "0xh", "0.001", "failed",
        some "Insufficient funds in faucet wallet", 1793836800⟩,
       ⟨2, "0xA", none, "0.001", "pending", none, 1793836790⟩] := by
  decide

/-- C11 at the failing input: the code `constructor` is not in the table, yet
`getErrorMessage` does not pass it through; the inherited property found by
`errorMessages[code]` is rendered in its place.  The same happens to `__proto__` next to a
known code. -/
theorem getErrorMessage_inherited_name :
    errorMessages.lookup "constructor" = none ∧
    getErrorMessage nodeObjectPrototype ["constructor"] =
      "function Object() \x7b [native code] \x7d" ∧
    getErrorMessage nodeObjectPrototype ["constructor"] ≠ "constructor" ∧
    getErrorMessage nodeObjectPrototype ["bad-request", "__proto__"] =
      "The request is invalid or malformed, [object Object]" ∧
    getErrorMessage nodeObjectPrototype ["bad-request", "__proto__"] ≠
      "The request is invalid or malformed, __proto__" := by
  decide

/-- C12 at the failing input: an upstream answer with `success: false` and the code
`invalid-input-response` makes `verifyToken` throw from the last branch of its `catch`,
with the rejection text wrapped in the form of a network error, and not the rejection
itself. -/
theorem verifyToken_rejection_rewrapped :
    verifyToken nodeObjectPrototype rejectingUpstream "secret" "tok" none =
      .error ⟨.transportError,
        "reCAPTCHA verification error: reCAPTCHA verification failed: " ++
          "The response parameter is invalid or malformed"⟩ ∧
    verifyToken nodeObjectPrototype rejectingUpstream "secret" "tok" none ≠
      .error ⟨.invalidToken,
        "reCAPTCHA verification failed: The response parameter is invalid or malformed"⟩ :=
  ⟨rfl, by
    intro h
    have h2 : verifyToken nodeObjectPrototype rejectingUpstream "secret" "tok" none =
        .error ⟨.transportError,
          "reCAPTCHA verification error: reCAPTCHA verification failed: " ++
            "The response parameter is invalid or malformed"⟩ := rfl
    rw [h2] at h
    simp only [Except.error.injEq, VerificationError.mk.injEq] at h
    exact absurd h.1 (by decide)⟩

/-- C13 at the failing inputs: a malformed recipient and an amount that is not a number
are rejected by the validation, but the `catch` of `sendTransaction` rethrows each in the
form of a generic failure, `Transaction failed: ...`, not as the rejection itself; and an
infinite amount passes the validation and fails only in `ethers.parseEther`. -/
theorem sendTransaction_validation_rewrapped :
    sendTransaction sampleChain "invalid-address" (.value defaultAmount) =
      (.error "Transaction failed: Invalid recipient address",
        [Call.isAddress "invalid-address"]) ∧
    (sendTransaction sampleChain "invalid-address" (.value defaultAmount)).1 ≠
      .error "Invalid recipient address" ∧
    sendTransaction sampleChain "0xA" (.value .nan) =
      (.error "Transaction failed: Invalid amount", [Call.isAddress "0xA"]) ∧
    (sendTransaction sampleChain "0xA" (.value .nan)).1 ≠ .error "Invalid amount" ∧
    sendTransaction pickyChain "0xA" (.value .posInf) =
      (.error "Transaction failed: invalid FixedNumber string value",
        [Call.isAddress "0xA", Call.parseEther "Infinity"]) := by
  refine ⟨rfl, ?_, rfl, ?_, rfl⟩
  · intro h
    have h2 : (sendTransaction sampleChain "invalid-address" (.value defaultAmount)).1 =
        .error "Transaction failed: Invalid recipient address" := rfl
    rw [h2] at h
    simp only [Except.error.injEq] at h
    exact absurd h (by decide)
  · intro h
    have h2 : (sendTransaction sampleChain "0xA" (.value .nan)).1 =
        .error "Transaction failed: Invalid amount" := rfl
    rw [h2] at h
    simp only [Except.error.injEq] at h
    exact absurd h (by decide)

/-- C14 as stated fails: on a network that reports a legacy gas price of zero and no fee
pair, the transaction handed to the wallet carries the fallback price, not the reported
one; and when a fee pair is reported next to a zero gas price, the pair is used. -/
theorem buildTx_skips_zero_gasPrice :
    zeroFeeChain.getFeeData = .ok ⟨some 0, none, none⟩ ∧
    Call.walletSendTransaction
        ⟨"0xA", 1000000000000000, 21000, some 1500000000, none, none⟩ ∈
      (sendTransaction zeroFeeChain "0xA" (.value defaultAmount)).2 ∧
    (buildTx "0xA" 1 21000 ⟨some 0, none, none⟩).gasPrice = some 1500000000 ∧
    (buildTx "0xA" 1 21000 ⟨some 0, none, none⟩).gasPrice ≠ some 0 ∧
    buildTx "0xA" 1 21000 ⟨some 0, some 9, some 2⟩ = ⟨"0xA", 1, 21000, none, some 9, some 2⟩ :=
  ⟨rfl, by decide, by decide, by decide, by decide⟩

/-- C14 amended: the transaction `sendTransaction` hands to the wallet is `buildTx` of the
recipient, the parsed amount, the estimated gas limit and the resolved fee data, and it
carries exactly one fee model: `gasPrice` equal to the reported legacy gas price when one
is reported and is not zero; otherwise `maxFeePerGas` and `maxPriorityFeePerGas` equal to
the reported pair when both are reported and neither is zero; otherwise the fallback
`gasPrice` of 1500000000 wei.  It never carries `gasPrice` together with a max-fee field,
and `to`, `value` and `gasLimit` are the same in every branch. -/
theorem buildTx_fee_model (toAddress : String) (wei gasLimit : Nat) (feeData : FeeData) :
    (buildTx toAddress wei gasLimit feeData).to_ = toAddress ∧
    (buildTx toAddress wei gasLimit feeData).value = wei ∧
    (buildTx toAddress wei gasLimit feeData).gasLimit = gasLimit ∧
    (∀ g, feeData.gasPrice = some g → g ≠ 0 →
      buildTx toAddress wei gasLimit feeData =
        ⟨toAddress, wei, gasLimit, some g, none, none⟩) ∧
    ((feeData.gasPrice = none ∨ feeData.gasPrice = some 0) →
      ∀ m p, feeData.maxFeePerGas = some m → m ≠ 0 →
        feeData.maxPriorityFeePerGas = some p → p ≠ 0 →
        buildTx toAddress wei gasLimit feeData =
          ⟨toAddress, wei, gasLimit, none, some m, some p⟩) ∧
    ((feeData.gasPrice = none ∨ feeData.gasPrice = some 0) →
      (feeData.maxFeePerGas = none ∨ feeData.maxFeePerGas = some 0 ∨
        feeData.maxPriorityFeePerGas = none ∨ feeData.maxPriorityFeePerGas = some 0) →
      buildTx toAddress wei gasLimit feeData =
        ⟨toAddress, wei, gasLimit, some 1500000000, none, none⟩) ∧
    (((buildTx toAddress wei gasLimit feeData).gasPrice ≠ none ∧
        (buildTx toAddress wei gasLimit feeData).maxFeePerGas = none ∧
        (buildTx toAddress wei gasLimit feeData).maxPriorityFeePerGas = none) ∨
      ((buildTx toAddress wei gasLimit feeData).gasPrice = none ∧
        (buildTx toAddress wei gasLimit feeData).maxFeePerGas ≠ none ∧
        (buildTx toAddress wei gasLimit feeData).maxPriorityFeePerGas ≠ none)) ∧
    (∀ (eth : Chain) (amount : JsAmount) (tx : Tx),
      Call.walletSendTransaction tx ∈ (sendTransaction eth toAddress amount).2 →
      ∃ text w l f, eth.parseEther text = .ok w ∧ eth.getFeeData = .ok f ∧
        eth.estimateGas toAddress w = .ok l ∧ tx = buildTx toAddress w l f) := by
  rcases feeData with ⟨gp, mf, mp⟩
  refine ⟨?_, ?_, ?_, ?_, ?_, ?_, ?_, ?_⟩
  · unfold buildTx
    split
    · rfl
    · split <;> rfl
  · unfold buildTx
    split
    · rfl
    · split <;> rfl
  · unfold buildTx
    split
    · rfl
    · split <;> rfl
  · intro g hg hg0
    simp only at hg
    subst hg
    simp [buildTx, truthyBig, hg0]
  · intro hgp m p hm hm0 hp hp0
    simp only at hgp hm hp
    subst hm hp
    rcases hgp with hgp | hgp <;> subst hgp <;> simp [buildTx, truthyBig, hm0, hp0]
  · intro hgp hpair
    simp only at hgp hpair
    rcases hgp with hgp | hgp <;> subst hgp <;>
      rcases hpair with h | h | h | h <;> subst h <;>
      simp [buildTx, truthyBig, fallbackGasPrice]
  · unfold buildTx
    split
    · rename_i h
      left
      refine ⟨?_, rfl, rfl⟩
      simp only
      cases gp with
      | none => simp [truthyBig] at h
      | some g => simp
    · split
      · rename_i h1 h2
        right
        simp only [Bool.and_eq_true] at h2
        refine ⟨rfl, ?_, ?_⟩
        · simp only
          cases mf with
          | none => simp [truthyBig] at h2
          | some m => simp
        · simp only
          cases mp with
          | none => simp [truthyBig] at h2
          | some p => simp
      · left
        exact ⟨by simp, rfl, rfl⟩
  · intro eth amount tx h
    exact sendTransaction_tx eth toAddress amount tx h

/-- Witness for the amended C14: a legacy price of 7, and a fee pair next to a zero
price. -/
theorem buildTx_fee_model_witness :
    buildTx "0xA" 1 21000 ⟨some 7, some 9, some 2⟩ = ⟨"0xA", 1, 21000, some 7, none, none⟩ ∧
    buildTx "0xA" 1 21000 ⟨some 0, some 9, some 2⟩ = ⟨"0xA", 1, 21000, none, some 9, some 2⟩ :=
  ⟨(buildTx_fee_model "0xA" 1 21000 ⟨some 7, some 9, some 2⟩).2.2.2.1 7 rfl (by decide),
    (buildTx_fee_model "0xA" 1 21000 ⟨some 0, some 9, some 2⟩).2.2.2.2.1 (Or.inr rfl) 9 2 rfl
      (by decide) rfl (by decide)⟩

/-- C15: the status lookup calls `getTransactionStatus` exactly for the hashes of 66
characters made of `0x` and 64 hexadecimal digits of either case; every other string gets
the 400 response `Invalid transaction hash format` with no call made; and for an accepted
hash whose status the chain client returns, the 200 response carries `txHash` equal to
the hash together with that status (a chain client that throws is answered 500). -/
theorem getTransaction_spec (lookup : ReceiptLookup) (h : String) :
    (matchesTxHash h = true ↔ IsTxHashFormat h) ∧
    ((getTransaction lookup h).2 = [h] ↔ IsTxHashFormat h) ∧
    ((getTransaction lookup h).1 ≠ invalidHashResponse ↔ IsTxHashFormat h) ∧
    (¬ IsTxHashFormat h →
      getTransaction lookup h = (invalidHashResponse, []) ∧
      (getTransaction lookup h).1.httpStatus = 400 ∧
      (getTransaction lookup h).1.error = some "Invalid transaction hash format") ∧
    (IsTxHashFormat h → ∀ st, getTransactionStatus lookup h = .ok st →
      getTransaction lookup h =
        (⟨200, true, none, some h, some st.status, some st.message, st.blockNumber,
          st.gasUsed⟩, [h])) ∧
    (IsTxHashFormat h → ∀ msg, getTransactionStatus lookup h = .error msg →
      getTransaction lookup h =
        (⟨500, false, some msg, none, none, none, none, none⟩, [h])) := by
  have hiff := matchesTxHash_iff h
  by_cases hf : IsTxHashFormat h
  · have hm : matchesTxHash h = true := hiff.2 hf
    have hne : h ≠ "" := by
      intro he
      subst he
      exact absurd hm (by decide)
    have hok : ∀ st, getTransactionStatus lookup h = .ok st →
        getTransaction lookup h =
          (⟨200, true, none, some h, some st.status, some st.message, st.blockNumber,
            st.gasUsed⟩, [h]) := by
      intro st hst
      simp [getTransaction, hm, hne, hst]
    have herr : ∀ msg, getTransactionStatus lookup h = .error msg →
        getTransaction lookup h =
          (⟨500, false, some msg, none, none, none, none, none⟩, [h]) := by
      intro msg hst
      simp [getTransaction, hm, hne, hst]
    refine ⟨hiff, ⟨fun _ => hf, fun _ => ?_⟩, ⟨fun _ => hf, fun _ => ?_⟩,
      fun hn => absurd hf hn, fun _ => hok, fun _ => herr⟩
    · cases hst : getTransactionStatus lookup h with
      | ok st => rw [hok st hst]
      | error msg => rw [herr msg hst]
    · cases hst : getTransactionStatus lookup h with
      | ok st =>
        rw [hok st hst]
        simp [invalidHashResponse]
      | error msg =>
        rw [herr msg hst]
        simp [invalidHashResponse]
  · have hm : matchesTxHash h = false := by
      cases hmm : matchesTxHash h with
      | false => rfl
      | true => exact absurd (hiff.1 hmm) hf
    have hbad : getTransaction lookup h = (invalidHashResponse, []) := by
      simp [getTransaction, hm]
    refine ⟨hiff, ⟨fun hc => ?_, fun hc => absurd hc hf⟩,
      ⟨fun hc => ?_, fun hc => absurd hc hf⟩, fun _ => ⟨hbad, ?_, ?_⟩,
      fun hc => absurd hc hf, fun hc => absurd hc hf⟩
    · rw [hbad] at hc
      simp at hc
    · rw [hbad] at hc
      exact absurd rfl hc
    · rw [hbad]
      rfl
    · rw [hbad]
      rfl

/-- Witness for C15: an accepted hash is echoed with its status, and the same hash
followed by a line feed is refused. -/
theorem getTransaction_spec_witness :
    getTransaction sampleLookup sampleHash =
      (⟨200, true, none, some sampleHash, some "success", some "Transaction successful",
        some 5, some "21000"⟩, [sampleHash]) ∧
    getTransaction sampleLookup (sampleHash ++ "\n") = (invalidHashResponse, []) :=
  ⟨(getTransaction_spec sampleLookup sampleHash).2.2.2.2.1
      ⟨by decide, by decide, by decide⟩
      ⟨"success", "Transaction successful", some 5, some "21000"⟩ rfl,
    ((getTransaction_spec sampleLookup (sampleHash ++ "\n")).2.2.2.1
      (fun hc => absurd hc.1 (by decide))).1⟩

end Faucet
